import Mathlib

/-!
Verification of the MultiSpec project-statistics engine
(`src/shared/SProjectComputeStatistics.cpp`) against its specification.

Machine doubles are modelled as rational numbers; statistics buffers are
modelled as total functions from flat array indices to values, and in-place
writes as pointwise functional updates.  Loops are translated one-for-one into
structural recursions whose state mirrors the source's loop variables.
-/

namespace MSpec

/-! ### Constant codes

The numeric codes below come from a project header that is not part of
`src/`; only their relative ordering is observable in the translated code. -/

/-- Modelled from the spec: covariance-estimator codes (`SDefines.h` is not in
`src/`).  The spec fixes the estimator set `{Original, LeaveOneOut, Enhanced,
Mixed}` with `Mixed` rejected by the per-class setter's range check
`covarianceStatsToUse <= 0 || covarianceStatsToUse > kEnhancedStats`, so
`kMixedStats` lies above `kEnhancedStats`. -/
def kOriginalStats : Nat := 1

/-- Modelled from the spec: leave-one-out estimator code. -/
def kLeaveOneOutStats : Nat := 2

/-- Modelled from the spec: enhanced/modified estimator code. -/
def kEnhancedStats : Nat := 3

/-- Modelled from the spec: project-level-only mixed estimator code. -/
def kMixedStats : Nat := 4

/-- Modelled from the spec: statistics code for mean/standard-deviation-only
storage (no covariance). -/
def kMeanStdDevOnly : Nat := 1

/-- Modelled from the spec: statistics code for mean plus covariance storage;
requests are refused when they exceed the project's stored code, so this lies
above `kMeanStdDevOnly`. -/
def kMeanCovariance : Nat := 2

/-- Modelled from the spec: field type code for training fields. -/
def kTrainingType : Nat := 1

/-- Modelled from the spec: field type code for test fields. -/
def kTestingType : Nat := 2

/-- Modelled from the spec: mixing-parameter code selecting the computed
optimum leave-one-out mixing value. -/
def kComputedOptimum : Nat := 1

/-- Modelled from the spec: mixing-parameter code selecting a user-fixed
mixing value. -/
def kUserSet : Nat := 2

/-- Modelled from the spec: mixing-parameter code selecting identity-matrix
blending. -/
def kIdentityMatrix : Nat := 3

/-! ### Channel statistics records -/

/-- One per (storage-unit, channel) statistics record, mirroring the source's
`ChannelStatistics` struct: running `sum`, derived `mean` and `standardDev`
(negative `standardDev` is the canonical stale marker), and running
`minimum`/`maximum`. -/
structure ChannelStatistics where
  sum : ℚ
  mean : ℚ
  standardDev : ℚ
  minimum : ℚ
  maximum : ℚ
deriving DecidableEq

/-- Loop body of `AddToClassChannelStatistics` for one matched channel:
with `initializeFlag` the source's `sum`, `minimum` and `maximum` are copied
and `standardDev` is set to `-1`; otherwise `sum` accumulates and
`minimum`/`maximum` are folded with `MIN`/`MAX` (and `standardDev` is not
written). -/
def addToChanStat (dst src : ChannelStatistics) (initializeFlag : Bool) :
    ChannelStatistics :=
  if initializeFlag then
    { dst with
        sum := src.sum
        standardDev := -1
        minimum := src.minimum
        maximum := src.maximum }
  else
    { dst with
        sum := dst.sum + src.sum
        minimum := min dst.minimum src.minimum
        maximum := max dst.maximum src.maximum }

/-- The channel loop of `AddToClassChannelStatistics`
(`SProjectComputeStatistics.cpp:721-766`).  Arguments after the fixed data
are the loop state: remaining iterations, `channel`, `channelNum`,
`channelListIndex`, the output write position (the `outChannelStatsPtr`
offset), and the output buffer. -/
def addChanLoop (channelList : Option (Nat → Nat))
    (inStats : Nat → ChannelStatistics) (initializeFlag : Bool)
    (channelListIndexLimit : Nat) :
    Nat → Nat → Nat → Nat → Nat → (Nat → ChannelStatistics) →
      (Nat → ChannelStatistics)
  | 0, _, _, _, _, outStats => outStats
  | remaining + 1, channel, channelNum, channelListIndex, outPos, outStats =>
    let channelNum1 := match channelList with
      | some l => l channelListIndex
      | none => channelNum
    if channel = channelNum1 then
      let outStats1 := Function.update outStats outPos
        (addToChanStat (outStats outPos) (inStats channelNum1) initializeFlag)
      let channelListIndex1 :=
        if channelListIndex < channelListIndexLimit then channelListIndex + 1
        else channelListIndex
      addChanLoop channelList inStats initializeFlag channelListIndexLimit
        remaining (channel + 1) (channelNum1 + 1) channelListIndex1
        (outPos + 1) outStats1
    else
      addChanLoop channelList inStats initializeFlag channelListIndexLimit
        remaining (channel + 1) (channelNum1 + 1) channelListIndex outPos
        outStats

/-- `AddToClassChannelStatistics` (`SProjectComputeStatistics.cpp:694-768`):
merges the input channel statistics into the output channel statistics,
optionally through a channel list; when the channel counts agree the source
sets `channelListPtr = NULL` before the loop. -/
def AddToClassChannelStatistics (numberOutputChannels : Nat)
    (outStats : Nat → ChannelStatistics) (numberInputChannels : Nat)
    (channelListPtr : Option (Nat → Nat)) (inStats : Nat → ChannelStatistics)
    (initializeFlag : Bool) : Nat → ChannelStatistics :=
  let channelListIndexLimit := numberOutputChannels - 1
  let channelList :=
    if numberOutputChannels = numberInputChannels then none else channelListPtr
  addChanLoop channelList inStats initializeFlag channelListIndexLimit
    numberInputChannels 0 0 0 0 outStats

/-! ### Numerical conditioning: zero-variance substitution -/

/-- Triangular packed-matrix index of entry (row `i`, column `j`, `j ≤ i`):
the source layout stores it at `i*(i+1)/2 + j` (spec §6); defined by row
recursion so that `triIdx (i+1) 0 = triIdx i i + 1`. -/
def triIdx : Nat → Nat → Nat
  | 0, j => j
  | i + 1, j => triIdx i i + 1 + j

/-- The diagonal flat index of feature `i` in a packed covariance matrix:
`i*(n+1)` in the square row-major layout, `triIdx i i = i*(i+1)/2 + i` in the
triangular layout. -/
def diagIdx (squareMatrixFlag : Bool) (numberFeatures i : Nat) : Nat :=
  if squareMatrixFlag then i * (numberFeatures + 1) else triIdx i i

/-- The feature loop of `ResetZeroVariances`
(`SProjectComputeStatistics.cpp:3675-3697`): state is remaining features, the
current diagonal offset of `covariancePtr`, and `indexSkip`; a diagonal entry
equal to exactly `0` is replaced by the project's `zeroVarianceFactor` and the
reset flag is latched. -/
def rzvLoop (zeroVarianceFactor : ℚ) (squareMatrixFlag : Bool)
    (outputStatisticsCode : Nat) :
    Nat → Nat → Nat → (Nat → ℚ) → (Nat → ℚ) × Bool
  | 0, _, _, covariance => (covariance, false)
  | feature + 1, idx, indexSkip, covariance =>
    let covariance1 :=
      if covariance idx = 0 then Function.update covariance idx zeroVarianceFactor
      else covariance
    let next : Nat × Nat :=
      if outputStatisticsCode = kMeanStdDevOnly then (idx + 1, indexSkip)
      else if squareMatrixFlag then (idx + indexSkip, indexSkip)
      else (idx + indexSkip, indexSkip + 1)
    let rest := rzvLoop zeroVarianceFactor squareMatrixFlag outputStatisticsCode
      feature next.1 next.2 covariance1
    (rest.1, (decide (covariance idx = 0)) || rest.2)

/-- `ResetZeroVariances` (`SProjectComputeStatistics.cpp:3655-3701`): walks
the diagonal of the packed matrix (`indexSkip` starts at `2` for the
triangular layout, `numberFeatures + 1` for the square layout), substitutes
the zero-variance factor for diagonal entries equal to `0`, and returns
whether any substitution happened. -/
def ResetZeroVariances (zeroVarianceFactor : ℚ) (covariancePtr : Nat → ℚ)
    (squareMatrixFlag : Bool) (outputStatisticsCode : Nat)
    (numberFeatures : Nat) : (Nat → ℚ) × Bool :=
  if numberFeatures = 0 then (covariancePtr, false)
  else
    let indexSkip := if squareMatrixFlag then numberFeatures + 1 else 2
    rzvLoop zeroVarianceFactor squareMatrixFlag outputStatisticsCode
      numberFeatures 0 indexSkip covariancePtr

/-- Diagonal offsets visited by `rzvLoop` in the triangular covariance mode:
start offset `idx`, then advance by `indexSkip` which grows by one each
feature. -/
def triPos : Nat → Nat → Nat → Nat
  | 0, idx, _ => idx
  | j + 1, idx, skip => triPos j (idx + skip) (skip + 1)

/-- Diagonal offsets visited by `rzvLoop` in the square covariance mode:
start offset `idx`, then advance by the fixed `indexSkip`. -/
def sqPos : Nat → Nat → Nat → Nat
  | 0, idx, _ => idx
  | j + 1, idx, skip => sqPos j (idx + skip) skip

/-! ### Numerical conditioning: all-equal-variance detection -/

/-- Inner comparison loop of `ResetForAllVariancesEqual`
(`SProjectComputeStatistics.cpp:3763-3774`): compares `r` consecutive entries
starting at `idx` against `compareVariance`; on the first mismatch it breaks,
leaving the offset where it stopped. -/
def rfaveScanRow (compareVariance : ℚ) (cov : Nat → ℚ) : Nat → Nat → Bool × Nat
  | 0, idx => (true, idx)
  | r + 1, idx =>
    if compareVariance = cov idx then rfaveScanRow compareVariance cov r (idx + 1)
    else (false, idx)

/-- Outer comparison loop of `ResetForAllVariancesEqual`
(`SProjectComputeStatistics.cpp:3761-3783`): row `feature1` has
`feature1 + 1` lower-triangular entries; in the square layout the
upper-right entries are skipped with a shrinking `upperRightIndexSkip`.  The
equal flag is latched across rows (a row mismatch only breaks the inner
loop). -/
def rfaveScanAll (compareVariance : ℚ) (squareMatrixFlag : Bool)
    (cov : Nat → ℚ) : Nat → Nat → Nat → Nat → Bool → Bool
  | 0, _, _, _, flag => flag
  | rows + 1, feature1, idx, upperRightIndexSkip, flag =>
    let rowResult := rfaveScanRow compareVariance cov (feature1 + 1) idx
    let idx1 :=
      if squareMatrixFlag then rowResult.2 + upperRightIndexSkip else rowResult.2
    let skip1 :=
      if squareMatrixFlag then upperRightIndexSkip - 1 else upperRightIndexSkip
    rfaveScanAll compareVariance squareMatrixFlag cov rows (feature1 + 1) idx1
      skip1 (flag && rowResult.1)

/-- Inner zeroing loop of `ResetForAllVariancesEqual`
(`SProjectComputeStatistics.cpp:3793-3798`): zeroes `r` consecutive
off-diagonal entries starting at `idx`. -/
def rfaveZeroRow : Nat → Nat → (Nat → ℚ) → (Nat → ℚ) × Nat
  | 0, idx, cov => (cov, idx)
  | r + 1, idx, cov => rfaveZeroRow r (idx + 1) (Function.update cov idx 0)

/-- Outer zeroing loop of `ResetForAllVariancesEqual`
(`SProjectComputeStatistics.cpp:3791-3814`): zeroes the `feature1`
off-diagonal entries of each row, skips the diagonal entry, and in the square
layout skips the upper-right portion. -/
def rfaveZeroAll (squareMatrixFlag : Bool) :
    Nat → Nat → Nat → Nat → (Nat → ℚ) → (Nat → ℚ)
  | 0, _, _, _, cov => cov
  | rows + 1, feature1, idx, skip, cov =>
    let z := rfaveZeroRow feature1 idx cov
    let idx1 := if squareMatrixFlag then z.2 + 1 + skip else z.2 + 1
    let skip1 := if squareMatrixFlag then skip - 1 else skip
    rfaveZeroAll squareMatrixFlag rows (feature1 + 1) idx1 skip1 z.1

/-- Modelled from the spec: `CopyLowerToUpperSquareMatrix` is not in `src/`;
per spec §4.2 it mirrors the lower-left triangle of a square row-major
`n × n` matrix onto the upper-right triangle: for row `i` and column `j`
with `i < j`, entry `(i, j)` is set to entry `(j, i)`; everything else is
unchanged. -/
def CopyLowerToUpperSquareMatrix (n : Nat) (cov : Nat → ℚ) : Nat → ℚ :=
  fun k =>
    if k / n < n ∧ k / n < k % n then cov ((k % n) * n + k / n) else cov k

/-- `ResetForAllVariancesEqual` (`SProjectComputeStatistics.cpp:3734-3830`):
returns `(matrix, false)` unchanged when there are fewer than two features or
the statistics are mean-only; otherwise compares every lower-triangular entry
with the first entry and, exactly when all are equal, zeroes the off-diagonal
entries (mirroring to the upper triangle for a square output) and returns
true. -/
def ResetForAllVariancesEqual (covariancePtr : Nat → ℚ)
    (squareMatrixFlag : Bool) (statisticsCode : Nat) (numberFeatures : Nat) :
    (Nat → ℚ) × Bool :=
  if numberFeatures ≤ 1 ∨ statisticsCode = kMeanStdDevOnly then
    (covariancePtr, false)
  else
    let compareVariance := covariancePtr 0
    let variancesEqualFlag := rfaveScanAll compareVariance squareMatrixFlag
      covariancePtr numberFeatures 0 0 (numberFeatures - 1) true
    if variancesEqualFlag then
      let cov1 := rfaveZeroAll squareMatrixFlag numberFeatures 0 0
        (numberFeatures - 1) covariancePtr
      let cov2 :=
        if squareMatrixFlag then CopyLowerToUpperSquareMatrix numberFeatures cov1
        else cov1
      (cov2, true)
    else (covariancePtr, false)

/-- Pure restatement of the lower-triangular comparison region visited by
`rfaveScanAll` in the triangular layout, used to characterise it. -/
def triCheck (compareVariance : ℚ) (cov : Nat → ℚ) : Nat → Nat → Nat → Bool
  | 0, _, _ => true
  | rows + 1, f1, idx =>
    decide (∀ u, u ≤ f1 → cov (idx + u) = compareVariance)
      && triCheck compareVariance cov rows (f1 + 1) (idx + f1 + 1)

/-- Pure restatement of the lower-triangular comparison region visited by
`rfaveScanAll` in the square layout. -/
def sqCheck (compareVariance : ℚ) (cov : Nat → ℚ) : Nat → Nat → Nat → Nat → Bool
  | 0, _, _, _ => true
  | rows + 1, f1, idx, skip =>
    decide (∀ u, u ≤ f1 → cov (idx + u) = compareVariance)
      && sqCheck compareVariance cov rows (f1 + 1) (idx + f1 + 1 + skip) (skip - 1)

/-- Every lower-triangular entry (diagonal included) of the packed matrix
equals the first entry, in the layout selected by `squareMatrixFlag`. -/
def allEqualLower : Bool → Nat → (Nat → ℚ) → Prop
  | true, n, cov => ∀ i, i < n → ∀ j, j ≤ i → cov (i * n + j) = cov 0
  | false, n, cov => ∀ i, i < n → ∀ j, j ≤ i → cov (triIdx i j) = cov 0

instance (s : Bool) (n : Nat) (cov : Nat → ℚ) : Decidable (allEqualLower s n cov) :=
  match s with
  | true => inferInstanceAs
      (Decidable (∀ i, i < n → ∀ j, j ≤ i → cov (i * n + j) = cov 0))
  | false => inferInstanceAs
      (Decidable (∀ i, i < n → ∀ j, j ≤ i → cov (triIdx i j) = cov 0))

/-- Concrete all-equal 3-feature matrix with value 7, used as a witness
input for the all-equal-variance conditioning pass. -/
def c6exCov : Nat → ℚ := fun _ => 7

/-- Concrete destination record used to exhibit the `initialize = false`
behaviour of `AddToClassChannelStatistics`: its standard deviation is
positive (not the stale marker). -/
def c7exOut : Nat → ChannelStatistics := fun _ =>
  { sum := 1, mean := 0, standardDev := 5, minimum := 0, maximum := 0 }

/-- Concrete source record accompanying `c7exOut`. -/
def c7exIn : Nat → ChannelStatistics := fun _ =>
  { sum := 2, mean := 0, standardDev := -1, minimum := 1, maximum := 3 }

/-! ### Project data model -/

/-- One training/test field record, mirroring the members of the source's
field-identifier struct used by the statistics engine: `fieldType`,
`statsUpToDate`, `loadedIntoClassStats`, `trainingStatsNumber`, and the
`nextField` link of the class's singly linked field list (`-1` ends the
chain). -/
structure FieldIdentifier where
  fieldType : Nat
  statsUpToDate : Bool
  loadedIntoClassStats : Bool
  trainingStatsNumber : Nat
  nextField : Int
deriving DecidableEq

/-- One class record, mirroring the members of the source's class-name
struct used by the statistics engine. -/
structure ClassNames where
  numberOfTrainFields : Int
  numberStatisticsPixels : Int
  numberTrainPixels : Int
  statsUpToDate : Bool
  covarianceStatsToUse : Nat
  modifiedStatsFlag : Bool
  mixingParameterCode : Nat
  looCovarianceValue : ℚ
  userMixingParameter : ℚ
  firstFieldNumber : Int
deriving DecidableEq

/-- The global project context (`gProjectInfoPtr`) restricted to the members
the verified routines read or write.  Statistics arenas are flat arrays
modelled as total functions from flat indices; `storageClass` maps a class
number to its storage slot. -/
structure ProjectInfo where
  numberStatisticsClasses : Nat
  storageClass : Nat → Nat
  classNames : Nat → ClassNames
  fieldIdent : Nat → FieldIdentifier
  keepClassStatsOnlyFlag : Bool
  numberStatisticsChannels : Nat
  numberCovarianceEntries : Nat
  statisticsCode : Nat
  statsUpToDate : Bool
  covarianceStatsToUse : Nat
  numberCommonCovarianceClasses : Nat
  enhancedStatsExistFlag : Bool
  setZeroVarianceFlag : Bool
  zeroVarianceFactor : ℚ
  currentClass : Nat
  useCommonCovarianceInLOOCFlag : Bool
  localCommonCovarianceLoadedFlag : Bool
  commonCovarianceStatsHandleValid : Bool
  commonCovarianceStats : Nat → ℚ
  classChanStats : Nat → ChannelStatistics
  classSumSquares : Nat → ℚ
  fieldChanStats : Nat → ChannelStatistics
  fieldSumSquares : Nat → ℚ
  modifiedClassChanStats : Nat → ChannelStatistics
  modifiedClassCov : Nat → ℚ

/-! ### Field/class aggregation: finishing a class statistics update -/

/-- The field-chain walk of `FinishClassStatsUpdate`
(`SProjectComputeStatistics.cpp:1878-1896`): starting from the class's
`firstFieldNumber`, follow `nextField` links until the `-1` sentinel; the
up-to-date flag becomes false at the first training field that has not been
loaded into the class statistics.  `fuel` bounds the walk (the source
assumes an acyclic chain); `none` models a walk that does not terminate
within `fuel` steps. -/
def checkFieldsLoop (fields : Nat → FieldIdentifier) : Nat → Int → Option Bool
  | 0, fieldNumber => if fieldNumber = -1 then some true else none
  | fuel + 1, fieldNumber =>
    if fieldNumber = -1 then some true
    else
      let f := fields fieldNumber.toNat
      if f.fieldType = kTrainingType ∧ f.loadedIntoClassStats = false then
        some false
      else checkFieldsLoop fields fuel f.nextField

/-- The list of field indices on a class's field chain, when the chain
terminates within `fuel` steps. -/
def fieldChain (fields : Nat → FieldIdentifier) : Nat → Int → Option (List Nat)
  | 0, fieldNumber => if fieldNumber = -1 then some [] else none
  | fuel + 1, fieldNumber =>
    if fieldNumber = -1 then some []
    else
      match fieldChain fields fuel (fields fieldNumber.toNat).nextField with
      | some l => some (fieldNumber.toNat :: l)
      | none => none

/-- Modelled from the spec: `GetProjectStatisticsPointers` plus
`ComputeMeanStdDevVector` (neither is in `src/`) as invoked by
`FinishClassStatsUpdate` on the class-only statistics arena: for each of the
class's channels (flat indices `classStorage * numberStatisticsChannels + ch`)
derive `mean = sum / pixelCount` and the dispersion from the triangular
sum-of-squares diagonal: `variance = (Σx² − sum²/n) / (n−1)` when `n > 1`,
else `0` (spec §4.1).  The source stores
`standardDeviation = sqrt(variance)`, which is irrational in general; this
model stores the variance itself in `standardDev` — the square root is
strictly monotone with the same sign and zeros, so every freshness (sign)
and degeneracy (zero) test in the engine is unchanged. -/
def ComputeMeanStdDevVectorClass (proj : ProjectInfo) (classStorage : Nat) :
    Nat → ChannelStatistics :=
  fun k =>
    let base := classStorage * proj.numberStatisticsChannels
    if base ≤ k ∧ k < base + proj.numberStatisticsChannels then
      let ch := k - base
      let cs := proj.classChanStats k
      let n : Int := (proj.classNames classStorage).numberStatisticsPixels
      let sumSq := proj.classSumSquares
        (classStorage * proj.numberCovarianceEntries + triIdx ch ch)
      let mean : ℚ := if n = 0 then 0 else cs.sum / (n : ℚ)
      let variance : ℚ :=
        if 1 < n then (sumSq - cs.sum * cs.sum / (n : ℚ)) / ((n : ℚ) - 1) else 0
      { cs with mean := mean, standardDev := variance }
    else proj.classChanStats k

/-- `FinishClassStatsUpdate` (`SProjectComputeStatistics.cpp:1841-1925`):
validates the class number, walks the field chain to decide whether every
training field has been loaded, recomputes the class mean/dispersion vector
when class-only storage is kept, stores the resulting up-to-date flag back
onto the class record, and returns it. -/
def FinishClassStatsUpdate (proj : ProjectInfo) (fuel : Nat)
    (classNumber : Nat) : Option (Bool × ProjectInfo) :=
  if proj.numberStatisticsClasses ≤ classNumber then some (false, proj)
  else
    let classStorage := proj.storageClass classNumber
    let cn := proj.classNames classStorage
    if 0 < cn.numberOfTrainFields ∧ cn.statsUpToDate = false then
      match checkFieldsLoop proj.fieldIdent fuel cn.firstFieldNumber with
      | none => none
      | some upToDateFlag =>
        let proj1 :=
          if proj.keepClassStatsOnlyFlag then
            { proj with
                classChanStats := ComputeMeanStdDevVectorClass proj classStorage }
          else proj
        some (upToDateFlag,
          { proj1 with
              classNames := Function.update proj1.classNames classStorage
                { cn with statsUpToDate := upToDateFlag } })
    else
      some (false,
        { proj with
            classNames := Function.update proj.classNames classStorage
              { cn with statsUpToDate := false } })

/-- Concrete one-class project whose single training field is loaded and
whose class record is already marked up to date. -/
def c1exProj : ProjectInfo where
  numberStatisticsClasses := 1
  storageClass := fun i => i
  classNames := fun _ =>
    { numberOfTrainFields := 1
      numberStatisticsPixels := 1
      numberTrainPixels := 1
      statsUpToDate := true
      covarianceStatsToUse := kOriginalStats
      modifiedStatsFlag := false
      mixingParameterCode := kUserSet
      looCovarianceValue := 1
      userMixingParameter := 1
      firstFieldNumber := 0 }
  fieldIdent := fun _ =>
    { fieldType := kTrainingType
      statsUpToDate := true
      loadedIntoClassStats := true
      trainingStatsNumber := 0
      nextField := -1 }
  keepClassStatsOnlyFlag := false
  numberStatisticsChannels := 1
  numberCovarianceEntries := 1
  statisticsCode := kMeanCovariance
  statsUpToDate := false
  covarianceStatsToUse := kOriginalStats
  numberCommonCovarianceClasses := 0
  enhancedStatsExistFlag := false
  setZeroVarianceFlag := false
  zeroVarianceFactor := 1
  currentClass := 0
  useCommonCovarianceInLOOCFlag := false
  localCommonCovarianceLoadedFlag := false
  commonCovarianceStatsHandleValid := false
  commonCovarianceStats := fun _ => 0
  classChanStats := fun _ => { sum := 0, mean := 0, standardDev := -1, minimum := 0, maximum := 0 }
  classSumSquares := fun _ => 0
  fieldChanStats := fun _ => { sum := 0, mean := 0, standardDev := -1, minimum := 0, maximum := 0 }
  fieldSumSquares := fun _ => 0
  modifiedClassChanStats := fun _ => { sum := 0, mean := 0, standardDev := -1, minimum := 0, maximum := 0 }
  modifiedClassCov := fun _ => 0

/-- The same one-class project as `c1exProj` but with the class's
up-to-date flag still clear, as it is during a statistics update pass. -/
def c1wProj : ProjectInfo :=
  { c1exProj with
      classNames := fun _ =>
        { numberOfTrainFields := 1
          numberStatisticsPixels := 1
          numberTrainPixels := 1
          statsUpToDate := false
          covarianceStatsToUse := kOriginalStats
          modifiedStatsFlag := false
          mixingParameterCode := kUserSet
          looCovarianceValue := 1
          userMixingParameter := 1
          firstFieldNumber := 0 } }

/-! ### Covariance estimator selection setters -/

/-- The class-consistency scan of `SetClassCovarianceStatsToUse`
(`SProjectComputeStatistics.cpp:3881-3894`): the project setting starts as
the input value and becomes `kMixedStats` at the first class whose stored
setting differs (the source then breaks out of the loop). -/
def sccLoop (proj : ProjectInfo) (input : Nat) : Nat → Nat → Nat
  | 0, _ => input
  | remaining + 1, classIndex =>
    let classStorage := proj.storageClass classIndex
    if input ≠ (proj.classNames classStorage).covarianceStatsToUse then
      kMixedStats
    else sccLoop proj input remaining (classIndex + 1)

/-- `SetClassCovarianceStatsToUse` (`SProjectComputeStatistics.cpp:3855-3920`):
rejects out-of-range inputs (in particular `kMixedStats`), stores the input
on the current class, sets the project-level setting to the input and then
to `kMixedStats` if any class disagrees, and finally clears the stale flags
when leave-one-out statistics with a computed-optimum mixing value are still
missing.  The UI-control update at the end of the source routine has no
statistics-engine effect and is not modelled. -/
def SetClassCovarianceStatsToUse (proj : ProjectInfo)
    (covarianceStatsToUse : Nat) : ProjectInfo :=
  if covarianceStatsToUse = 0 ∨ kEnhancedStats < covarianceStatsToUse then proj
  else
    let classStorage := proj.storageClass proj.currentClass
    let proj1 := { proj with
      classNames := Function.update proj.classNames classStorage
        { proj.classNames classStorage with
            covarianceStatsToUse := covarianceStatsToUse }
      covarianceStatsToUse := covarianceStatsToUse }
    let projectSetting :=
      sccLoop proj1 covarianceStatsToUse proj1.numberStatisticsClasses 0
    let proj2 := { proj1 with covarianceStatsToUse := projectSetting }
    let classStorage2 := proj2.storageClass proj2.currentClass
    let cs := proj2.classNames classStorage2
    if covarianceStatsToUse = kLeaveOneOutStats
        ∧ cs.mixingParameterCode = kComputedOptimum
        ∧ cs.looCovarianceValue < 0 then
      { proj2 with
          statsUpToDate := false
          classNames := Function.update proj2.classNames classStorage2
            { cs with statsUpToDate := false } }
    else proj2

/-- One iteration of the class loop of `SetProjectCovarianceStatsToUse`
(`SProjectComputeStatistics.cpp:4032-4106`), producing the updated project
state, the running project-level summary value, and the running
enhanced-stats-exist flag. -/
def spcStep (input : Nat) (proj : ProjectInfo) (classIndex : Nat)
    (tracked : Nat) (enh : Bool) : ProjectInfo × Nat × Bool :=
  let classStorage := proj.storageClass classIndex
  let cn0 := proj.classNames classStorage
  let cn1 :=
    if cn0.covarianceStatsToUse = kMixedStats then
      { cn0 with covarianceStatsToUse := kOriginalStats }
    else cn0
  let saved := cn1.covarianceStatsToUse
  let cn2 :=
    if input ≠ kMixedStats then { cn1 with covarianceStatsToUse := input }
    else cn1
  let enh1 := enh || cn2.modifiedStatsFlag
  let res : ClassNames × ProjectInfo :=
    if cn2.covarianceStatsToUse = kEnhancedStats
        ∧ cn2.modifiedStatsFlag = false then
      let projA :=
        if 0 < cn2.numberTrainPixels then
          { proj with covarianceStatsToUse := kMixedStats }
        else proj
      ({ cn2 with covarianceStatsToUse :=
          if saved = kEnhancedStats then kOriginalStats else saved }, projA)
    else if cn2.covarianceStatsToUse = kLeaveOneOutStats
        ∧ cn2.mixingParameterCode = kComputedOptimum
        ∧ cn2.looCovarianceValue < 0 then
      ({ cn2 with statsUpToDate := false },
       { proj with statsUpToDate := false, numberCommonCovarianceClasses := 0 })
    else (cn2, proj)
  let proj1 :=
    { res.2 with classNames := Function.update res.2.classNames classStorage res.1 }
  let tracked1 :=
    if classIndex = 0 then res.1.covarianceStatsToUse
    else if tracked ≠ kMixedStats ∧ tracked ≠ res.1.covarianceStatsToUse then
      kMixedStats
    else tracked
  (proj1, tracked1, enh1)

/-- The class loop of `SetProjectCovarianceStatsToUse`. -/
def spcLoop (input : Nat) : Nat → Nat → ProjectInfo → Nat → Bool →
    ProjectInfo × Nat × Bool
  | 0, _, proj, tracked, enh => (proj, tracked, enh)
  | remaining + 1, classIndex, proj, tracked, enh =>
    let s := spcStep input proj classIndex tracked enh
    spcLoop input remaining (classIndex + 1) s.1 s.2.1 s.2.2

/-- `SetProjectCovarianceStatsToUse`
(`SProjectComputeStatistics.cpp:3999-4130`): sets the project-level setting
to the input, runs the per-class loop (which cleans stored `kMixedStats`
values, applies the input unless it is `kMixedStats`, reverts classes whose
enhanced statistics are missing, and flags stale leave-one-out state), then
stores the loop's summary value and enhanced-stats flag, falling back to
`kOriginalStats` when enhanced statistics were requested but none exist.
UI updates at the end of the source routine are not modelled. -/
def SetProjectCovarianceStatsToUse (proj : ProjectInfo)
    (covarianceStatsToUse : Nat) : ProjectInfo :=
  let proj0 := { proj with covarianceStatsToUse := covarianceStatsToUse }
  let res := spcLoop covarianceStatsToUse proj0.numberStatisticsClasses 0 proj0
    kOriginalStats false
  let proj1 := { res.1 with
    covarianceStatsToUse := res.2.1
    enhancedStatsExistFlag := res.2.2 }
  if covarianceStatsToUse = kEnhancedStats ∧ res.2.2 = false then
    { proj1 with covarianceStatsToUse := kOriginalStats }
  else proj1

/-- The net effect of one loop iteration of `SetProjectCovarianceStatsToUse`
on the processed class's stored estimator value, used to state its
specification. -/
def spcClassOutcome (cn : ClassNames) (input : Nat) : Nat :=
  let c1 :=
    if cn.covarianceStatsToUse = kMixedStats then kOriginalStats
    else cn.covarianceStatsToUse
  let c2 := if input ≠ kMixedStats then input else c1
  if c2 = kEnhancedStats ∧ cn.modifiedStatsFlag = false then
    (if c1 = kEnhancedStats then kOriginalStats else c1)
  else c2

/-- The net effect of one loop iteration of `SetProjectCovarianceStatsToUse`
on the processed class's whole record. -/
def spcClassRecord (cn : ClassNames) (input : Nat) : ClassNames :=
  let c1 :=
    if cn.covarianceStatsToUse = kMixedStats then kOriginalStats
    else cn.covarianceStatsToUse
  let c2 := if input ≠ kMixedStats then input else c1
  if c2 = kEnhancedStats ∧ cn.modifiedStatsFlag = false then
    { cn with covarianceStatsToUse :=
        if c1 = kEnhancedStats then kOriginalStats else c1 }
  else if c2 = kLeaveOneOutStats ∧ cn.mixingParameterCode = kComputedOptimum
      ∧ cn.looCovarianceValue < 0 then
    { cn with covarianceStatsToUse := c2, statsUpToDate := false }
  else { cn with covarianceStatsToUse := c2 }

/-- Concrete one-class project whose class uses leave-one-out statistics
with a user-set mixing parameter and has no enhanced statistics. -/
def c8exProj : ProjectInfo :=
  { c1exProj with
      classNames := fun _ =>
        { numberOfTrainFields := 1
          numberStatisticsPixels := 1
          numberTrainPixels := 1
          statsUpToDate := true
          covarianceStatsToUse := kLeaveOneOutStats
          modifiedStatsFlag := false
          mixingParameterCode := kUserSet
          looCovarianceValue := 1
          userMixingParameter := 1
          firstFieldNumber := 0 } }

/-! ### Pooled (common) covariance -/

/-- Modelled from the spec: `GetTotalProbability` (not in `src/`) totals the
class a-priori weights over the listed classes; the weights themselves are
abstracted as the function `weightOf` from statistics-class number to
weight. -/
def GetTotalProbability (weightOf : Nat → ℚ) (classAt : Nat → Nat)
    (numberClasses : Nat) : ℚ :=
  ∑ i in Finset.range numberClasses, weightOf (classAt i)

/-- Modelled from the spec: `GetClassWeightValue` (not in `src/`) is the
class a-priori weight normalized by the total probability. -/
def GetClassWeightValue (weightOf : Nat → ℚ) (statClassNumber : Nat)
    (totalProbability : ℚ) : ℚ :=
  weightOf statClassNumber / totalProbability

/-- The class-number resolution of `GetCommonCovariance`
(`SProjectComputeStatistics.cpp:2917-2921`): the caller's one-based class
list when present, otherwise all classes in order. -/
def gccClassAt (classPtr : Option (Nat → Nat)) : Nat → Nat :=
  fun classIndex =>
    match classPtr with
    | some l => l classIndex - 1
    | none => classIndex

/-- The per-class estimator resolution of `GetCommonCovariance`
(`SProjectComputeStatistics.cpp:2900-2940`): `kMixedStats` input defers to
the class's own stored selection. -/
def gccStatsToUse (proj : ProjectInfo) (inputCovarianceStatsToUse : Nat)
    (statClassNumber : Nat) : Nat :=
  if inputCovarianceStatsToUse ≠ kMixedStats then inputCovarianceStatsToUse
  else (proj.classNames (proj.storageClass statClassNumber)).covarianceStatsToUse

/-- The number of packed-matrix entries accumulated by `GetCommonCovariance`
(`SProjectComputeStatistics.cpp:2896-2898`). -/
def gccNumberIndices (squareOutputMatrixFlag : Bool)
    (numberFeatureChannels : Nat) : Nat :=
  if squareOutputMatrixFlag then numberFeatureChannels * numberFeatureChannels
  else (numberFeatureChannels + 1) * numberFeatureChannels / 2

/-- The class loop of `GetCommonCovariance`
(`SProjectComputeStatistics.cpp:2913-2973`).  The call to
`GetClassCovarianceMatrix`, which fills the caller's temporary buffer with
the covariance of the class under the resolved estimator, is abstracted as
the function `classCov` from (statistics-class number, estimator code, flat
index) to the entry written; the global cancel flag `gOperationCanceledFlag`
is modelled by `cancelAfter`, its value at the check that follows the
accumulation of the class at each loop index.  Returns the accumulated
matrix, the common-covariance class count, and the continue flag. -/
def gccLoop (weightOf : Nat → ℚ) (classAt : Nat → Nat)
    (statsToUseAt : Nat → Nat) (classCov : Nat → Nat → Nat → ℚ)
    (cancelAfter : Nat → Bool) (totalProbability : ℚ) (numberIndices : Nat) :
    Nat → Nat → (Nat → ℚ) → Nat → (Nat → ℚ) × Nat × Bool
  | 0, _, cov, count => (cov, count, true)
  | remaining + 1, classIndex, cov, count =>
    let statClassNumber := classAt classIndex
    let weightValue :=
      GetClassWeightValue weightOf statClassNumber totalProbability
    if 0 < weightValue then
      let count1 := count + 1
      let temp := classCov statClassNumber (statsToUseAt statClassNumber)
      let cov1 := fun idx =>
        if idx < numberIndices then cov idx + weightValue * temp idx
        else cov idx
      if cancelAfter classIndex then (cov1, count1, false)
      else gccLoop weightOf classAt statsToUseAt classCov cancelAfter
        totalProbability numberIndices remaining (classIndex + 1) cov1 count1
    else gccLoop weightOf classAt statsToUseAt classCov cancelAfter
      totalProbability numberIndices remaining (classIndex + 1) cov count

/-- `GetCommonCovariance` (`SProjectComputeStatistics.cpp:2850-2981`):
normalizes the a-priori weights, zeroes the output matrix (`ZeroMatrix` is
not in `src/`; modelled per spec §2 as zero-initialization of the packed
region), accumulates the weighted per-class covariances with cooperative
cancellation, and commits the common-covariance class count to the project
only after a fully successful pass and only when
`projectCommonCovarianceFlag` is set.  Returns the matrix, the continue
flag, and the resulting project state. -/
def GetCommonCovariance (proj : ProjectInfo) (covInit : Nat → ℚ)
    (classPtr : Option (Nat → Nat)) (weightOf : Nat → ℚ)
    (classCov : Nat → Nat → Nat → ℚ) (cancelAfter : Nat → Bool)
    (numberClasses : Nat) (numberFeatureChannels : Nat)
    (squareOutputMatrixFlag : Bool) (inputCovarianceStatsToUse : Nat)
    (projectCommonCovarianceFlag : Bool) :
    (Nat → ℚ) × Bool × ProjectInfo :=
  let classAt := gccClassAt classPtr
  let totalProbability := GetTotalProbability weightOf classAt numberClasses
  let numberIndices :=
    gccNumberIndices squareOutputMatrixFlag numberFeatureChannels
  let covZeroed := fun idx =>
    if idx < numberIndices then (0 : ℚ) else covInit idx
  let res := gccLoop weightOf classAt
    (gccStatsToUse proj inputCovarianceStatsToUse) classCov cancelAfter
    totalProbability numberIndices numberClasses 0 covZeroed 0
  let proj1 :=
    if res.2.2 && projectCommonCovarianceFlag then
      { proj with numberCommonCovarianceClasses := res.2.1 }
    else proj
  (res.1, res.2.2, proj1)

/-- Uniform unit class weights for the concrete pooled-covariance runs. -/
def c2wWeight : Nat → ℚ := fun _ => 1

/-- Cancel signal that becomes true at the check following the class at loop
index 1 (the second of three classes). -/
def c2wCancel : Nat → Bool := fun i => decide (i = 1)

/-- Constant per-class covariance provider for the concrete
pooled-covariance runs. -/
def c2wCov : Nat → Nat → Nat → ℚ := fun _ _ _ => 1

/-- Cancel signal that never fires. -/
def c3wCancel : Nat → Bool := fun _ => false

/-- Class weights with a non-positive weight for class 0, to exercise the
skip path of the pooled-covariance loop. -/
def c3wWeight : Nat → ℚ := fun i => if i = 0 then 0 else 1

/-! ### Consumer-facing class accessors -/

/-- The channel-subset map: a feature list sends output position `k` to input
channel `list k`; a null list is the identity. -/
def chanMap (channelList : Option (Nat → Nat)) : Nat → Nat :=
  fun k => match channelList with
    | some l => l k
    | none => k

/-- `ReduceChanStatsVector` (`SProjectComputeStatistics.cpp:3543-3568`):
copies the channel-statistics records of the listed channels (all channels
when the feature list is null) into the first `numOutFeatures` slots of the
output vector. -/
def ReduceChanStatsVector (inputChanStats outputChanStats : Nat → ChannelStatistics)
    (numOutFeatures : Nat) (featureList : Option (Nat → Nat)) :
    Nat → ChannelStatistics :=
  fun k =>
    if k < numOutFeatures then inputChanStats (chanMap featureList k)
    else outputChanStats k

/-- Modelled from the spec: `ComputeMeanVector` is not in `src/`; per spec
§4.1 it derives `mean = sum / pixelCount` for each of the first
`numberChannels` channel-statistics records (a zero pixel count yields `0`). -/
def ComputeMeanVector (chanStats : Nat → ChannelStatistics)
    (numberChannels : Nat) (numberPixels : Int) : Nat → ChannelStatistics :=
  fun k =>
    if k < numberChannels then
      { chanStats k with
          mean := if numberPixels = 0 then 0
                  else (chanStats k).sum / (numberPixels : ℚ) }
    else chanStats k

/-- The field-chain walk of `CombineFieldChannelStatistics`
(`SProjectComputeStatistics.cpp:1367-1401`): follow `nextField` links from the
class's first field; every training field with up-to-date statistics is merged
into the class channel statistics, with `initializeFlag` true only for the
first merged field.  The field arena and channel count are passed explicitly
(the source reads them from the project before the loop); `fuel` bounds the
walk and `none` models a chain that does not terminate. -/
def cfcsLoop (fields : Nat → FieldIdentifier) (numberOutputChannels : Nat)
    (numberInputChannels : Nat) (channelList : Option (Nat → Nat))
    (fieldChanStats : Nat → ChannelStatistics) :
    Nat → Int → Bool → (Nat → ChannelStatistics) →
      Option (Nat → ChannelStatistics)
  | 0, fieldNumber, _, buf => if fieldNumber = -1 then some buf else none
  | fuel + 1, fieldNumber, initializeFlag, buf =>
    if fieldNumber = -1 then some buf
    else
      let f := fields fieldNumber.toNat
      if f.fieldType = kTrainingType ∧ f.statsUpToDate = true then
        let buf1 := AddToClassChannelStatistics numberOutputChannels buf
          numberInputChannels channelList
          (fun ch => fieldChanStats
            (f.trainingStatsNumber * numberInputChannels + ch))
          initializeFlag
        cfcsLoop fields numberOutputChannels numberInputChannels channelList
          fieldChanStats fuel f.nextField false buf1
      else
        cfcsLoop fields numberOutputChannels numberInputChannels channelList
          fieldChanStats fuel f.nextField initializeFlag buf

/-- `CombineFieldChannelStatistics` (`SProjectComputeStatistics.cpp:1322-1404`):
adds the first-order statistics of every up-to-date training field of the
class into the class channel-statistics buffer; a zero output channel count
returns the buffer unchanged. -/
def CombineFieldChannelStatistics (proj : ProjectInfo) (fuel : Nat)
    (numberOutputChannels : Nat) (channelList : Option (Nat → Nat))
    (classChannelStats : Nat → ChannelStatistics) (classNumber : Nat) :
    Option (Nat → ChannelStatistics) :=
  if numberOutputChannels = 0 then some classChannelStats
  else
    cfcsLoop proj.fieldIdent numberOutputChannels proj.numberStatisticsChannels
      channelList proj.fieldChanStats fuel
      (proj.classNames (proj.storageClass classNumber)).firstFieldNumber true
      classChannelStats

/-- `GetClassChannelStatistics` (`SProjectComputeStatistics.cpp:2223-2299`):
returns `false` with the buffer untouched when the channel count is zero or
the class has no training fields; when the class's stored estimator is
Enhanced and modified statistics exist, copies the modified class channel
statistics of the requested channels (the modified arena offset mirrors
`GetProjectStatisticsPointers (kClassStatsOnly, classStorage, ...)`, which is
not in `src/` and is modelled from the spec's flat-arena layout); otherwise
recombines the original statistics — from the class accumulators when only
class statistics are kept, else from the field chain — and derives the mean
vector.  `none` models a field chain that does not terminate. -/
def GetClassChannelStatistics (proj : ProjectInfo) (fuel : Nat)
    (numberOutputChannels : Nat) (classChannelStats : Nat → ChannelStatistics)
    (channelList : Option (Nat → Nat)) (classNumber : Nat) :
    Option (Bool × (Nat → ChannelStatistics)) :=
  if numberOutputChannels = 0 then some (false, classChannelStats)
  else
    let classStorage := proj.storageClass classNumber
    let cn := proj.classNames classStorage
    if cn.numberOfTrainFields ≤ 0 then some (false, classChannelStats)
    else if cn.covarianceStatsToUse = kEnhancedStats ∧ cn.modifiedStatsFlag = true then
      some (true,
        ReduceChanStatsVector
          (fun ch => proj.modifiedClassChanStats
            (classStorage * proj.numberStatisticsChannels + ch))
          classChannelStats numberOutputChannels channelList)
    else
      match
        (if proj.keepClassStatsOnlyFlag then
          some (AddToClassChannelStatistics numberOutputChannels classChannelStats
            proj.numberStatisticsChannels channelList
            (fun ch => proj.classChanStats
              (classStorage * proj.numberStatisticsChannels + ch)) true)
        else
          CombineFieldChannelStatistics proj fuel numberOutputChannels
            channelList classChannelStats classNumber) with
      | none => none
      | some buf =>
        some (true,
          ComputeMeanVector buf numberOutputChannels cn.numberStatisticsPixels)

/-- Decodes a triangular packed flat index back into its (row, column) pair:
walk the rows, subtracting each row's length, until the remainder fits in the
current row.  `triDecode (triIdx i j) = (i, j)` for `j ≤ i`; the first
component is the fuel-bounded row, so it never exceeds the index itself. -/
def triDecodeAux : Nat → Nat → Nat → Nat × Nat
  | 0, row, rem => (row, rem)
  | f + 1, row, rem =>
    if rem ≤ row then (row, rem) else triDecodeAux f (row + 1) (rem - (row + 1))

/-- Triangular flat index decoded to (row, column). -/
def triDecode (idx : Nat) : Nat × Nat := triDecodeAux idx 0 idx

/-- The triangular-arena flat index of the full-matrix entry for output
channel pair `(a, b)` under a channel map: row is the larger mapped channel,
column the smaller (the full second-order arena stores the lower triangle). -/
def ssInIndex (map : Nat → Nat) (a b : Nat) : Nat :=
  triIdx (max (map a) (map b)) (min (map a) (map b))

/-- Modelled from the spec: `AddToClassStatistics` is not in `src/`; per spec
§4.1 it accumulates a field's (or the class accumulator's) first- and
second-order statistics into the output statistics through the channel-subset
map (identity when the channel counts agree, mirroring the source's
channel-list convention).  First-order records accumulate with the engine's
merge (`sum +=`, min/max fold); the second-order buffer accumulates the
input's triangular sums of squares at each retained output position — the
lower triangle of the square row-major layout or the whole triangular layout
when the full covariance is kept, the diagonal variance positions in
mean/standard-deviation-only mode. -/
def AddToClassStatistics (numberOutputChannels : Nat)
    (outChanStats : Nat → ChannelStatistics) (outSumSquares : Nat → ℚ)
    (numberInputChannels : Nat) (channelList : Option (Nat → Nat))
    (inChanStats : Nat → ChannelStatistics) (inSumSquares : Nat → ℚ)
    (squareOutputMatrixFlag : Bool)
    (inputStatisticsCode outputStatisticsCode : Nat) :
    (Nat → ChannelStatistics) × (Nat → ℚ) :=
  let map := chanMap
    (if numberOutputChannels = numberInputChannels then none else channelList)
  let inVarIdx : Nat → Nat := fun c =>
    if inputStatisticsCode = kMeanCovariance then triIdx (map c) (map c)
    else map c
  ( fun k =>
      if k < numberOutputChannels then
        addToChanStat (outChanStats k) (inChanStats (map k)) false
      else outChanStats k,
    fun idx =>
      if outputStatisticsCode = kMeanCovariance then
        if squareOutputMatrixFlag then
          let a := idx / numberOutputChannels
          let b := idx % numberOutputChannels
          if a < numberOutputChannels ∧ b ≤ a then
            outSumSquares idx + inSumSquares (ssInIndex map a b)
          else outSumSquares idx
        else
          let d := triDecode idx
          if d.1 < numberOutputChannels then
            outSumSquares idx + inSumSquares (ssInIndex map d.1 d.2)
          else outSumSquares idx
      else
        if idx < numberOutputChannels then
          outSumSquares idx + inSumSquares (inVarIdx idx)
        else outSumSquares idx )

/-- Modelled from the spec: `ZeroStatisticsMemory` is not in `src/`; it
clears the class statistics workspace before recombination — the first
`numberChannels` first-order records (cleared records carry the engine's
stale dispersion marker `-1`, spec §3) and the second-order region whose
extent depends on the statistics code and output shape
(`n²` square, `n(n+1)/2` triangular, `n` variance-only). -/
def ZeroStatisticsMemory (chanStats : Nat → ChannelStatistics)
    (sumSquares : Nat → ℚ) (numberChannels : Nat) (statisticsCode : Nat)
    (squareOutputMatrixFlag : Bool) :
    (Nat → ChannelStatistics) × (Nat → ℚ) :=
  let ssCount :=
    if statisticsCode = kMeanCovariance then
      if squareOutputMatrixFlag then numberChannels * numberChannels
      else triIdx numberChannels 0
    else numberChannels
  ( fun k =>
      if k < numberChannels then
        { sum := 0, mean := 0, standardDev := -1, minimum := 0, maximum := 0 }
      else chanStats k,
    fun k => if k < ssCount then 0 else sumSquares k )

/-- The field-chain walk of `CombineFieldStatistics`
(`SProjectComputeStatistics.cpp:1467-1509`): follow `nextField` links; every
training field with up-to-date statistics has its first- and second-order
statistics added into the class buffers (the field arenas at the offsets of
`GetProjectStatisticsPointers (kFieldStatsOnly, ...)`, modelled from the
spec's flat-arena layout). -/
def cfsLoop (fields : Nat → FieldIdentifier) (numberOutputChannels : Nat)
    (numberInputChannels : Nat) (channelList : Option (Nat → Nat))
    (fieldChanStats : Nat → ChannelStatistics) (fieldSumSquares : Nat → ℚ)
    (numberCovarianceEntries : Nat) (squareOutputMatrixFlag : Bool)
    (inputStatisticsCode outputStatisticsCode : Nat) :
    Nat → Int → (Nat → ChannelStatistics) → (Nat → ℚ) →
      Option ((Nat → ChannelStatistics) × (Nat → ℚ))
  | 0, fieldNumber, chanBuf, ssBuf =>
    if fieldNumber = -1 then some (chanBuf, ssBuf) else none
  | fuel + 1, fieldNumber, chanBuf, ssBuf =>
    if fieldNumber = -1 then some (chanBuf, ssBuf)
    else
      let f := fields fieldNumber.toNat
      if f.fieldType = kTrainingType ∧ f.statsUpToDate = true then
        let r := AddToClassStatistics numberOutputChannels chanBuf ssBuf
          numberInputChannels channelList
          (fun ch => fieldChanStats
            (f.trainingStatsNumber * numberInputChannels + ch))
          (fun i => fieldSumSquares
            (f.trainingStatsNumber * numberCovarianceEntries + i))
          squareOutputMatrixFlag inputStatisticsCode outputStatisticsCode
        cfsLoop fields numberOutputChannels numberInputChannels channelList
          fieldChanStats fieldSumSquares numberCovarianceEntries
          squareOutputMatrixFlag inputStatisticsCode outputStatisticsCode
          fuel f.nextField r.1 r.2
      else
        cfsLoop fields numberOutputChannels numberInputChannels channelList
          fieldChanStats fieldSumSquares numberCovarianceEntries
          squareOutputMatrixFlag inputStatisticsCode outputStatisticsCode
          fuel f.nextField chanBuf ssBuf

/-- `CombineFieldStatistics` (`SProjectComputeStatistics.cpp:1430-1511`):
adds the statistics of every up-to-date training field of the class into the
output buffers; a zero output channel count returns the buffers unchanged. -/
def CombineFieldStatistics (proj : ProjectInfo) (fuel : Nat)
    (numberOutputChannels : Nat) (channelList : Option (Nat → Nat))
    (chanBuf : Nat → ChannelStatistics) (ssBuf : Nat → ℚ) (classNumber : Nat)
    (squareOutputMatrixFlag : Bool) (outputStatisticsCode : Nat) :
    Option ((Nat → ChannelStatistics) × (Nat → ℚ)) :=
  if numberOutputChannels = 0 then some (chanBuf, ssBuf)
  else
    cfsLoop proj.fieldIdent numberOutputChannels proj.numberStatisticsChannels
      channelList proj.fieldChanStats proj.fieldSumSquares
      proj.numberCovarianceEntries squareOutputMatrixFlag proj.statisticsCode
      outputStatisticsCode fuel
      (proj.classNames (proj.storageClass classNumber)).firstFieldNumber
      chanBuf ssBuf

/-- `GetClassSumsSquares` (`SProjectComputeStatistics.cpp:2741-2822`):
returns `false` with the buffers untouched when the channel count is zero or
the class has no training fields; otherwise zeroes the workspace and either
adds the kept class accumulators (failing, with zeroed buffers, when the
class has no statistics pixels) or combines the field statistics. -/
def GetClassSumsSquares (proj : ProjectInfo) (fuel : Nat)
    (numberOutputChannels : Nat) (chanBuf : Nat → ChannelStatistics)
    (ssBuf : Nat → ℚ) (channelList : Option (Nat → Nat)) (classNumber : Nat)
    (squareOutputMatrixFlag : Bool) (outputStatisticsCode : Nat) :
    Option (Bool × (Nat → ChannelStatistics) × (Nat → ℚ)) :=
  if numberOutputChannels = 0 then some (false, chanBuf, ssBuf)
  else
    let classStorage := proj.storageClass classNumber
    let cn := proj.classNames classStorage
    if 0 < cn.numberOfTrainFields then
      let z := ZeroStatisticsMemory chanBuf ssBuf numberOutputChannels
        outputStatisticsCode squareOutputMatrixFlag
      if proj.keepClassStatsOnlyFlag then
        if 0 < cn.numberStatisticsPixels then
          let r := AddToClassStatistics numberOutputChannels z.1 z.2
            proj.numberStatisticsChannels channelList
            (fun ch => proj.classChanStats
              (classStorage * proj.numberStatisticsChannels + ch))
            (fun i => proj.classSumSquares
              (classStorage * proj.numberCovarianceEntries + i))
            squareOutputMatrixFlag proj.statisticsCode outputStatisticsCode
          some (true, r.1, r.2)
        else some (false, z.1, z.2)
      else
        match CombineFieldStatistics proj fuel numberOutputChannels channelList
          z.1 z.2 classNumber squareOutputMatrixFlag outputStatisticsCode with
        | none => none
        | some r => some (true, r.1, r.2)
    else some (false, chanBuf, ssBuf)

/-- Modelled from the spec: the buffer-level `ComputeMeanStdDevVector` (not
in `src/`) as invoked by `ComputeVarianceVector` on a triangular second-order
buffer: for each channel derive `mean = sum / pixelCount` and the dispersion
`(Σx² − sum²/n) / (n−1)` when `n > 1`, else `0` (spec §4.1).  As with the
class-arena model, the variance stands in for the irrational standard
deviation, preserving every sign and zero test. -/
def ComputeMeanStdDevVector (chanStats : Nat → ChannelStatistics)
    (sumSquares : Nat → ℚ) (numberChannels : Nat) (numberPixels : Int) :
    Nat → ChannelStatistics :=
  fun k =>
    if k < numberChannels then
      let cs := chanStats k
      let mean : ℚ := if numberPixels = 0 then 0 else cs.sum / (numberPixels : ℚ)
      let variance : ℚ :=
        if 1 < numberPixels then
          (sumSquares (triIdx k k) - cs.sum * cs.sum / (numberPixels : ℚ)) /
            ((numberPixels : ℚ) - 1)
        else 0
      { cs with mean := mean, standardDev := variance }
    else chanStats k

/-- `ComputeVarianceVector` (`SProjectComputeStatistics.cpp:1672-1734`):
with a positive channel count and pixel count, first derives the
mean/dispersion records when the first record's dispersion is still the
stale marker, then writes each channel's squared dispersion into the variance
buffer (`0` for every channel when there are fewer than two pixels);
otherwise everything is left untouched.  (With the model's
variance-for-standard-deviation convention the written value is the square
of the modelled dispersion; this branch is mean-only plumbing, exercised by
no claim's property.) -/
def ComputeVarianceVector (channelStats : Nat → ChannelStatistics)
    (sumSquares : Nat → ℚ) (variance : Nat → ℚ) (numberChannels : Nat)
    (numberPixels : Int) : (Nat → ChannelStatistics) × (Nat → ℚ) :=
  if 0 < numberChannels ∧ 0 < numberPixels then
    let chan1 :=
      if (channelStats 0).standardDev < 0 then
        ComputeMeanStdDevVector channelStats sumSquares numberChannels
          numberPixels
      else channelStats
    ( chan1,
      fun k =>
        if k < numberChannels then
          if 1 < numberPixels then (chan1 k).standardDev * (chan1 k).standardDev
          else 0
        else variance k )
  else (channelStats, variance)

/-- Modelled from the spec: `ComputeCovarianceMatrix` is not in `src/`; per
spec §4.2 each retained packed position — decoded to its channel pair
`(a, b)` in the requested output shape — is rewritten in place from the
accumulated sums of squares as `(Σx_a x_b − sum_a · sum_b / n) / (n − 1)`
when `n > 1`, else `0` (the call site passes a null channel list and equal
channel counts, so input and output share the packed layout). -/
def ComputeCovarianceMatrix (numberOutputChannels : Nat)
    (chanStats : Nat → ChannelStatistics) (inSumSquares : Nat → ℚ)
    (numberPixels : Int) (squareOutputMatrixFlag : Bool) : Nat → ℚ :=
  let entry : Nat → Nat → ℚ → ℚ := fun a b s =>
    if 1 < numberPixels then
      (s - (chanStats a).sum * (chanStats b).sum / (numberPixels : ℚ)) /
        ((numberPixels : ℚ) - 1)
    else 0
  fun idx =>
    if squareOutputMatrixFlag then
      let a := idx / numberOutputChannels
      let b := idx % numberOutputChannels
      if a < numberOutputChannels ∧ b ≤ a then entry a b (inSumSquares idx)
      else inSumSquares idx
    else
      let d := triDecode idx
      if d.1 < numberOutputChannels then entry d.1 d.2 (inSumSquares idx)
      else inSumSquares idx

/-- Modelled from the spec: `ReduceInputMatrix` is not in `src/`; per spec
§4.2 it projects a full triangular matrix onto the requested channel subset:
each retained output position — the lower triangle of the square layout or
the whole triangular layout — receives the full-matrix entry of its mapped
channel pair (the map is the identity when the channel counts agree,
mirroring the source's channel-list convention). -/
def ReduceInputMatrix (numberOutputChannels : Nat) (outMatrix : Nat → ℚ)
    (numberInputChannels : Nat) (channelList : Option (Nat → Nat))
    (inMatrix : Nat → ℚ) (squareOutputMatrixFlag : Bool) : Nat → ℚ :=
  let map := chanMap
    (if numberOutputChannels = numberInputChannels then none else channelList)
  fun idx =>
    if squareOutputMatrixFlag then
      let a := idx / numberOutputChannels
      let b := idx % numberOutputChannels
      if a < numberOutputChannels ∧ b ≤ a then inMatrix (ssInIndex map a b)
      else outMatrix idx
    else
      let d := triDecode idx
      if d.1 < numberOutputChannels then inMatrix (ssInIndex map d.1 d.2)
      else outMatrix idx

/-- Modelled from the spec: `GetLOOCovariance` is not in `src/`; per spec
§4.4 the leave-one-out covariance blends the class covariance with the
support matrix over the packed region: with mixing weight `λ` — the computed
optimum or the user's value per the class's mixing-parameter code — an
ordinary support matrix yields `(1−λ)·C + λ·common`, and the identity-matrix
code blends toward the identity instead (`λ` on the diagonal, damping
off-diagonal entries). -/
def GetLOOCovariance (mixingParameterCode : Nat)
    (looCovarianceValue userMixingParameter : ℚ) (numberOutputChannels : Nat)
    (classCov commonCov : Nat → ℚ) (squareOutputMatrixFlag : Bool) :
    Nat → ℚ :=
  let lam : ℚ :=
    if mixingParameterCode = kComputedOptimum then looCovarianceValue
    else userMixingParameter
  let region :=
    if squareOutputMatrixFlag then numberOutputChannels * numberOutputChannels
    else triIdx numberOutputChannels 0
  fun idx =>
    if idx < region then
      if mixingParameterCode = kIdentityMatrix then
        let isDiag :=
          if squareOutputMatrixFlag then
            idx / numberOutputChannels = idx % numberOutputChannels
          else (triDecode idx).1 = (triDecode idx).2
        (1 - lam) * classCov idx + (if isDiag then lam else 0)
      else (1 - lam) * classCov idx + lam * commonCov idx
    else classCov idx

/-- `GetClassCovarianceMatrix` (`SProjectComputeStatistics.cpp:2335-2526`).
The source routine is `void`: its observable effects are the channel-stats
and covariance buffers and the project state, returned here as a triple
(`none` models a field chain that does not terminate).  A zero channel count
or a statistics request beyond the project's statistics code returns
everything untouched.  When the Enhanced estimator is requested and the
class has modified statistics, the channel statistics come from
`GetClassChannelStatistics` and the covariance is the modified class matrix
projected onto the requested channels (mirrored to the upper triangle for a
square output); otherwise the class sums and sums of squares are recombined
and turned into the covariance matrix (with the leave-one-out blending
against the project's common covariance when requested) or, for
mean-only requests, the variance vector.  `looUpdate` stands for
`UpdateProjectLOOStats` (not in `src/`), invoked when the common covariance
is wanted but not yet computed; the common-covariance handle content lives in
`commonCovarianceStats` with its reduced copy at offset
`numberCovarianceEntries`, and `commonCovarianceStatsHandleValid` models the
source's null-pointer test on the handle.  Finally, zero variances are
substituted when the project asks for it (the result listing side effect is
outside the model). -/
def GetClassCovarianceMatrix (proj : ProjectInfo) (fuel : Nat)
    (looUpdate : ProjectInfo → ProjectInfo) (numberOutputChannels : Nat)
    (classChannelStats : Nat → ChannelStatistics) (classCovariance : Nat → ℚ)
    (channelList : Option (Nat → Nat)) (statClassNumber : Nat)
    (squareOutputMatrixFlag : Bool) (outputStatisticsCode : Nat)
    (covarianceStatsToUse : Nat) :
    Option ((Nat → ChannelStatistics) × (Nat → ℚ) × ProjectInfo) :=
  if numberOutputChannels = 0 then
    some (classChannelStats, classCovariance, proj)
  else if proj.statisticsCode < outputStatisticsCode then
    some (classChannelStats, classCovariance, proj)
  else
    let classStorage := proj.storageClass statClassNumber
    let cn := proj.classNames classStorage
    let afterBranch :
        Option (Bool × (Nat → ChannelStatistics) × (Nat → ℚ) × ProjectInfo) :=
      if covarianceStatsToUse = kEnhancedStats ∧ cn.modifiedStatsFlag = true then
        match GetClassChannelStatistics proj fuel numberOutputChannels
          classChannelStats channelList statClassNumber with
        | none => none
        | some r =>
          let cov1 := ReduceInputMatrix numberOutputChannels classCovariance
            proj.numberStatisticsChannels channelList
            (fun i => proj.modifiedClassCov
              (classStorage * proj.numberCovarianceEntries + i))
            squareOutputMatrixFlag
          let cov2 :=
            if squareOutputMatrixFlag then
              CopyLowerToUpperSquareMatrix numberOutputChannels cov1
            else cov1
          some (r.1, r.2, cov2, proj)
      else
        match GetClassSumsSquares proj fuel numberOutputChannels
          classChannelStats classCovariance channelList statClassNumber
          squareOutputMatrixFlag outputStatisticsCode with
        | none => none
        | some r =>
          if r.1 then
            if outputStatisticsCode = kMeanCovariance then
              let cov1 := ComputeCovarianceMatrix numberOutputChannels r.2.1
                r.2.2 cn.numberStatisticsPixels squareOutputMatrixFlag
              if covarianceStatsToUse = kLeaveOneOutStats then
                let proj1 :=
                  if proj.useCommonCovarianceInLOOCFlag = true ∧
                      proj.numberCommonCovarianceClasses = 0 then looUpdate proj
                  else proj
                let reducedCommon := ReduceInputMatrix numberOutputChannels
                  (fun j => proj1.commonCovarianceStats
                    (proj1.numberCovarianceEntries + j))
                  proj1.numberStatisticsChannels channelList
                  proj1.commonCovarianceStats false
                let proj2 :=
                  if proj1.useCommonCovarianceInLOOCFlag = true ∧
                      proj1.localCommonCovarianceLoadedFlag = false then
                    { proj1 with
                        commonCovarianceStats := fun i =>
                          if proj1.numberCovarianceEntries ≤ i then
                            reducedCommon (i - proj1.numberCovarianceEntries)
                          else proj1.commonCovarianceStats i,
                        localCommonCovarianceLoadedFlag := true }
                  else proj1
                let cov2 :=
                  if proj2.commonCovarianceStatsHandleValid = true ∧
                      (proj2.useCommonCovarianceInLOOCFlag = false ∨
                        0 < proj2.numberCommonCovarianceClasses) then
                    GetLOOCovariance cn.mixingParameterCode
                      cn.looCovarianceValue cn.userMixingParameter
                      numberOutputChannels cov1
                      (fun j => proj2.commonCovarianceStats
                        (proj2.numberCovarianceEntries + j))
                      squareOutputMatrixFlag
                  else cov1
                some (true, r.2.1, cov2, proj2)
              else some (true, r.2.1, cov1, proj)
            else
              let v := ComputeVarianceVector r.2.1 r.2.2 r.2.2
                numberOutputChannels cn.numberStatisticsPixels
              some (true, v.1, v.2, proj)
          else some (false, r.2.1, r.2.2, proj)
    match afterBranch with
    | none => none
    | some r =>
      let covFinal :=
        if r.1 = true ∧ outputStatisticsCode = kMeanCovariance ∧
            r.2.2.2.setZeroVarianceFlag = true then
          (ResetZeroVariances r.2.2.2.zeroVarianceFactor r.2.2.1
            squareOutputMatrixFlag outputStatisticsCode
            numberOutputChannels).1
        else r.2.2.1
      some (r.2.1, covFinal, r.2.2.2)

/-- Modelled from the spec: `ReduceMeanVector` is not in `src/`; it copies
the mean of each listed channel-statistics record (all channels when the
feature list is null) into the output vector. -/
def ReduceMeanVector (chanStats : Nat → ChannelStatistics) (outMean : Nat → ℚ)
    (numOutFeatures : Nat) (featureList : Option (Nat → Nat)) : Nat → ℚ :=
  fun k =>
    if k < numOutFeatures then (chanStats (chanMap featureList k)).mean
    else outMean k

/-- `GetClassMeanVector` (`SProjectComputeStatistics.cpp:2598-2620`).  The
source routine is `void`: it computes `GetClassChannelStatistics`'s success
flag into a local, extracts the mean vector when that flag is true, and
discards the flag — the caller receives only the buffers, returned here as a
pair. -/
def GetClassMeanVector (proj : ProjectInfo) (fuel : Nat)
    (numberOutputChannels : Nat) (classChannelStats : Nat → ChannelStatistics)
    (outputClassMean : Nat → ℚ) (channelList : Option (Nat → Nat))
    (classNumber : Nat) : Option ((Nat → ChannelStatistics) × (Nat → ℚ)) :=
  match GetClassChannelStatistics proj fuel numberOutputChannels
    classChannelStats channelList classNumber with
  | none => none
  | some r =>
    if r.1 then
      some (r.2, ReduceMeanVector r.2 outputClassMean numberOutputChannels none)
    else some (r.2, outputClassMean)

/-- Fresh channel-statistics buffer handed in by an accessor caller. -/
def c4chan : Nat → ChannelStatistics := fun _ =>
  { sum := 0, mean := 0, standardDev := -1, minimum := 0, maximum := 0 }

/-- Fresh covariance buffer handed in by an accessor caller. -/
def c4cov : Nat → ℚ := fun _ => 0

/-- The one-class project of `c1exProj` with the class's stored estimator set
to Enhanced and modified statistics available. -/
def c4exProj : ProjectInfo :=
  { c1exProj with
      classNames := fun _ =>
        { c1exProj.classNames 0 with
            covarianceStatsToUse := kEnhancedStats
            modifiedStatsFlag := true } }

/-- Caller buffer with recognizable garbage: a mean vector of `99`s. -/
def c9mean : Nat → ℚ := fun _ => 99

/-- Caller covariance buffer with recognizable garbage entries `99`. -/
def c9cov : Nat → ℚ := fun _ => 99

/-- Caller channel-statistics buffer with recognizable garbage means. -/
def c9chan : Nat → ChannelStatistics := fun _ =>
  { sum := 0, mean := 99, standardDev := -1, minimum := 0, maximum := 0 }

/-- The one-class project of `c1exProj` with a class that has no training
fields, so every statistics recombination for it fails internally. -/
def c9Proj : ProjectInfo :=
  { c1exProj with
      classNames := fun _ =>
        { c1exProj.classNames 0 with numberOfTrainFields := 0 } }

/-! ### Theorems -/

theorem addChanLoop_none_eq (inStats : Nat → ChannelStatistics) (init : Bool)
    (lim : Nat) :
    ∀ (r c i : Nat) (out : Nat → ChannelStatistics),
      addChanLoop none inStats init lim r c c i c out
        = fun k =>
            if c ≤ k ∧ k < c + r then addToChanStat (out k) (inStats k) init
            else out k := by
  intro r
  induction r with
  | zero =>
    intro c i out
    funext k
    have h : ¬ (c ≤ k ∧ k < c) := by omega
    simp [addChanLoop, h]
  | succ r ih =>
    intro c i out
    funext k
    rw [addChanLoop]
    simp only [if_pos rfl]
    rw [ih]
    by_cases hk : k = c
    · subst hk
      have h1 : ¬ (k + 1 ≤ k ∧ k < k + 1 + r) := by omega
      have h2 : k ≤ k ∧ k < k + (r + 1) := by omega
      simp [h1, h2, Function.update]
    · by_cases hk2 : c + 1 ≤ k ∧ k < c + 1 + r
      · have h2 : c ≤ k ∧ k < c + (r + 1) := by omega
        simp [hk2, h2, Function.update, hk]
      · have h2 : ¬ (c ≤ k ∧ k < c + (r + 1)) := by omega
        simp [hk2, h2, Function.update, hk]

theorem addToClassChannelStatistics_none_eq (n : Nat)
    (outStats inStats : Nat → ChannelStatistics) (init : Bool) (k : Nat) :
    AddToClassChannelStatistics n outStats n none inStats init k
      = if k < n then addToChanStat (outStats k) (inStats k) init
        else outStats k := by
  unfold AddToClassChannelStatistics
  rw [if_pos rfl, addChanLoop_none_eq]
  simp

/-- C10: whenever the number of output channels equals the number of input
channels, `AddToClassChannelStatistics` ignores the supplied channel list
entirely (the source nulls `channelListPtr` before the loop) and merges
source channel `i` into destination channel `i` for every `i < n`, leaving
every other destination entry untouched. -/
theorem C10_full_channel_list_ignored (n : Nat)
    (outStats inStats : Nat → ChannelStatistics) (l : Nat → Nat) (init : Bool) :
    AddToClassChannelStatistics n outStats n (some l) inStats init
        = AddToClassChannelStatistics n outStats n none inStats init
      ∧ ∀ k, AddToClassChannelStatistics n outStats n (some l) inStats init k
          = if k < n then addToChanStat (outStats k) (inStats k) init
            else outStats k := by
  have hlist : AddToClassChannelStatistics n outStats n (some l) inStats init
      = AddToClassChannelStatistics n outStats n none inStats init := by
    unfold AddToClassChannelStatistics
    rw [if_pos rfl, if_pos rfl]
  refine ⟨hlist, fun k => ?_⟩
  rw [hlist, addToClassChannelStatistics_none_eq]

/-- C7 counterexample: with `initialize = false` the merge writes `sum`
(here `1 + 2 = 3`) but does not touch `standardDev`, so a destination whose
standard deviation was `5` keeps it at `5`, which is not negative — refuting
the claim that in both cases the write to `sum` leaves the destination's
standard deviation negative. -/
theorem C7_counterexample :
    (AddToClassChannelStatistics 1 c7exOut 1 none c7exIn false 0).sum = 3 ∧
      ¬ (AddToClassChannelStatistics 1 c7exOut 1 none c7exIn false 0).standardDev
          < 0 := by
  constructor
  · rw [addToClassChannelStatistics_none_eq]
    norm_num [addToChanStat, c7exOut, c7exIn]
  · rw [addToClassChannelStatistics_none_eq]
    norm_num [addToChanStat, c7exOut, c7exIn]

/-- C7 (amended): for every destination/source channel-statistics pair,
`AddToClassChannelStatistics` with `initialize` true copies the source's sum,
minimum and maximum into the destination and sets the destination's standard
deviation to `-1` (the canonical stale marker); with `initialize` false it
accumulates `sum += src.sum`, `minimum = min(dst.minimum, src.minimum)`,
`maximum = max(dst.maximum, src.maximum)` and leaves the standard deviation
unchanged, so after an accumulate step the stale marker is present exactly
when it was present before. -/
theorem C7_merge_spec (n : Nat) (outStats inStats : Nat → ChannelStatistics)
    (init : Bool) (k : Nat) (hk : k < n) :
    AddToClassChannelStatistics n outStats n none inStats init k
      = if init then
          { outStats k with
              sum := (inStats k).sum
              standardDev := -1
              minimum := (inStats k).minimum
              maximum := (inStats k).maximum }
        else
          { outStats k with
              sum := (outStats k).sum + (inStats k).sum
              minimum := min (outStats k).minimum (inStats k).minimum
              maximum := max (outStats k).maximum (inStats k).maximum } := by
  rw [addToClassChannelStatistics_none_eq, if_pos hk]
  rfl

/-- Witness for C7: the amended merge specification applied at a concrete
one-channel initialize merge. -/
theorem C7_merge_spec_witness :
    0 < 1 ∧
      AddToClassChannelStatistics 1 c7exOut 1 none c7exIn true 0
        = if true then
            { c7exOut 0 with
                sum := (c7exIn 0).sum
                standardDev := -1
                minimum := (c7exIn 0).minimum
                maximum := (c7exIn 0).maximum }
          else
            { c7exOut 0 with
                sum := (c7exOut 0).sum + (c7exIn 0).sum
                minimum := min (c7exOut 0).minimum (c7exIn 0).minimum
                maximum := max (c7exOut 0).maximum (c7exIn 0).maximum } :=
  ⟨by decide, C7_merge_spec 1 c7exOut c7exIn true 0 (by decide)⟩

theorem triPos_ge (j : Nat) : ∀ idx skip : Nat, idx ≤ triPos j idx skip := by
  induction j with
  | zero => intro idx skip; exact Nat.le_refl idx
  | succ j ih =>
    intro idx skip
    exact le_trans (by omega) (ih (idx + skip) (skip + 1))

theorem sqPos_ge (j : Nat) : ∀ idx skip : Nat, idx ≤ sqPos j idx skip := by
  induction j with
  | zero => intro idx skip; exact Nat.le_refl idx
  | succ j ih =>
    intro idx skip
    exact le_trans (by omega) (ih (idx + skip) skip)

theorem two_mul_triIdx (i : Nat) : ∀ j : Nat, 2 * triIdx i j = i * i + i + 2 * j := by
  induction i with
  | zero => intro j; simp [triIdx]
  | succ i ih =>
    intro j
    have h := ih i
    show 2 * (triIdx i i + 1 + j) = (i + 1) * (i + 1) + (i + 1) + 2 * j
    ring_nf
    ring_nf at h
    linarith [h]

theorem two_mul_triPos (j : Nat) :
    ∀ idx skip : Nat, 2 * triPos j idx skip + j = 2 * idx + 2 * (j * skip) + j * j := by
  induction j with
  | zero => intro idx skip; simp [triPos]
  | succ j ih =>
    intro idx skip
    have h := ih (idx + skip) (skip + 1)
    show 2 * triPos j (idx + skip) (skip + 1) + (j + 1)
        = 2 * idx + 2 * ((j + 1) * skip) + (j + 1) * (j + 1)
    ring_nf
    ring_nf at h
    linarith [h]

theorem triPos_zero_two (i : Nat) : triPos i 0 2 = triIdx i i := by
  have h1 := two_mul_triPos i 0 2
  have h2 := two_mul_triIdx i i
  ring_nf at h1 h2
  linarith [h1, h2]

theorem sqPos_eq (j : Nat) : ∀ idx skip : Nat, sqPos j idx skip = idx + j * skip := by
  induction j with
  | zero => intro idx skip; simp [sqPos]
  | succ j ih =>
    intro idx skip
    have h := ih (idx + skip) skip
    show sqPos j (idx + skip) skip = idx + (j + 1) * skip
    rw [h, Nat.succ_mul]
    omega

theorem rzvLoop_tri_spec (f : ℚ) (r : Nat) :
    ∀ (idx skip : Nat) (cov : Nat → ℚ), 1 ≤ skip →
      (∀ k, (rzvLoop f false kMeanCovariance r idx skip cov).1 k
          = if (∃ j, j < r ∧ k = triPos j idx skip) ∧ cov k = 0 then f
            else cov k)
        ∧ ((rzvLoop f false kMeanCovariance r idx skip cov).2 = true
          ↔ ∃ j, j < r ∧ cov (triPos j idx skip) = 0) := by
  induction r with
  | zero =>
    intro idx skip cov hskip
    constructor
    · intro k
      simp [rzvLoop]
    · simp [rzvLoop]
  | succ r ih =>
    intro idx skip cov hskip
    have hmode : ¬ (kMeanCovariance = kMeanStdDevOnly) := by
      simp [kMeanCovariance, kMeanStdDevOnly]
    have hstep : rzvLoop f false kMeanCovariance (r + 1) idx skip cov
        = ((rzvLoop f false kMeanCovariance r (idx + skip) (skip + 1)
              (if cov idx = 0 then Function.update cov idx f else cov)).1,
           (decide (cov idx = 0))
             || (rzvLoop f false kMeanCovariance r (idx + skip) (skip + 1)
                  (if cov idx = 0 then Function.update cov idx f else cov)).2) := by
      simp [rzvLoop, hmode]
    set cov1 := if cov idx = 0 then Function.update cov idx f else cov with hcov1
    have hrec := ih (idx + skip) (skip + 1) cov1 (by omega)
    have hgt : ∀ j, idx < triPos j (idx + skip) (skip + 1) := by
      intro j
      have := triPos_ge j (idx + skip) (skip + 1)
      omega
    have hcov1ne : ∀ m, m ≠ idx → cov1 m = cov m := by
      intro m hm
      rw [hcov1]
      split
      · simp [Function.update, hm]
      · rfl
    constructor
    · intro k
      rw [hstep]
      simp only
      rw [hrec.1 k]
      by_cases hk : k = idx
      · subst hk
        have hne : ¬ ((∃ j, j < r ∧ k = triPos j (k + skip) (skip + 1))
            ∧ cov1 k = 0) := by
          rintro ⟨⟨j, _, hj⟩, _⟩
          exact absurd hj (by have := hgt j; omega)
        have hyes : ∃ j, j < r + 1 ∧ k = triPos j k skip :=
          ⟨0, by omega, rfl⟩
        rw [if_neg hne]
        by_cases hz : cov k = 0
        · rw [if_pos ⟨hyes, hz⟩, hcov1]
          simp [hz, Function.update]
        · rw [if_neg (by tauto), hcov1]
          simp [hz]
      · have hck : cov1 k = cov k := hcov1ne k hk
        rw [hck]
        have hiff : (∃ j, j < r ∧ k = triPos j (idx + skip) (skip + 1))
            ↔ (∃ j, j < r + 1 ∧ k = triPos j idx skip) := by
          constructor
          · rintro ⟨j, hj, he⟩
            exact ⟨j + 1, by omega, he⟩
          · rintro ⟨j, hj, he⟩
            match j with
            | 0 => exact absurd he hk
            | j + 1 => exact ⟨j, by omega, he⟩
        exact if_congr (and_congr_left' hiff) rfl rfl
    · rw [hstep]
      simp only [Bool.or_eq_true, decide_eq_true_eq]
      rw [hrec.2]
      have hpos : ∀ j, cov1 (triPos j (idx + skip) (skip + 1))
          = cov (triPos j (idx + skip) (skip + 1)) := by
        intro j
        exact hcov1ne _ (by have := hgt j; omega)
      constructor
      · rintro (hz | ⟨j, hj, he⟩)
        · exact ⟨0, by omega, hz⟩
        · rw [hpos j] at he
          exact ⟨j + 1, by omega, he⟩
      · rintro ⟨j, hj, he⟩
        match j with
        | 0 => exact Or.inl he
        | j + 1 =>
          right
          exact ⟨j, by omega, by rw [hpos j]; exact he⟩

theorem rzvLoop_sq_spec (f : ℚ) (r : Nat) :
    ∀ (idx skip : Nat) (cov : Nat → ℚ), 1 ≤ skip →
      (∀ k, (rzvLoop f true kMeanCovariance r idx skip cov).1 k
          = if (∃ j, j < r ∧ k = sqPos j idx skip) ∧ cov k = 0 then f
            else cov k)
        ∧ ((rzvLoop f true kMeanCovariance r idx skip cov).2 = true
          ↔ ∃ j, j < r ∧ cov (sqPos j idx skip) = 0) := by
  induction r with
  | zero =>
    intro idx skip cov hskip
    constructor
    · intro k
      simp [rzvLoop]
    · simp [rzvLoop]
  | succ r ih =>
    intro idx skip cov hskip
    have hmode : ¬ (kMeanCovariance = kMeanStdDevOnly) := by
      simp [kMeanCovariance, kMeanStdDevOnly]
    have hstep : rzvLoop f true kMeanCovariance (r + 1) idx skip cov
        = ((rzvLoop f true kMeanCovariance r (idx + skip) skip
              (if cov idx = 0 then Function.update cov idx f else cov)).1,
           (decide (cov idx = 0))
             || (rzvLoop f true kMeanCovariance r (idx + skip) skip
                  (if cov idx = 0 then Function.update cov idx f else cov)).2) := by
      simp [rzvLoop, hmode]
    set cov1 := if cov idx = 0 then Function.update cov idx f else cov with hcov1
    have hrec2 := ih (idx + skip) skip cov1 (by omega)
    have hgt : ∀ j, idx < sqPos j (idx + skip) skip := by
      intro j
      have := sqPos_ge j (idx + skip) skip
      omega
    have hcov1ne : ∀ m, m ≠ idx → cov1 m = cov m := by
      intro m hm
      rw [hcov1]
      split
      · simp [Function.update, hm]
      · rfl
    constructor
    · intro k
      rw [hstep]
      simp only
      rw [hrec2.1 k]
      by_cases hk : k = idx
      · subst hk
        have hne : ¬ ((∃ j, j < r ∧ k = sqPos j (k + skip) skip)
            ∧ cov1 k = 0) := by
          rintro ⟨⟨j, _, hj⟩, _⟩
          exact absurd hj (by have := hgt j; omega)
        have hyes : ∃ j, j < r + 1 ∧ k = sqPos j k skip :=
          ⟨0, by omega, rfl⟩
        rw [if_neg hne]
        by_cases hz : cov k = 0
        · rw [if_pos ⟨hyes, hz⟩, hcov1]
          simp [hz, Function.update]
        · rw [if_neg (by tauto), hcov1]
          simp [hz]
      · have hck : cov1 k = cov k := hcov1ne k hk
        rw [hck]
        have hiff : (∃ j, j < r ∧ k = sqPos j (idx + skip) skip)
            ↔ (∃ j, j < r + 1 ∧ k = sqPos j idx skip) := by
          constructor
          · rintro ⟨j, hj, he⟩
            exact ⟨j + 1, by omega, he⟩
          · rintro ⟨j, hj, he⟩
            match j with
            | 0 => exact absurd he hk
            | j + 1 => exact ⟨j, by omega, he⟩
        exact if_congr (and_congr_left' hiff) rfl rfl
    · rw [hstep]
      simp only [Bool.or_eq_true, decide_eq_true_eq]
      rw [hrec2.2]
      have hpos : ∀ j, cov1 (sqPos j (idx + skip) skip)
          = cov (sqPos j (idx + skip) skip) := by
        intro j
        exact hcov1ne _ (by have := hgt j; omega)
      constructor
      · rintro (hz | ⟨j, hj, he⟩)
        · exact ⟨0, by omega, hz⟩
        · rw [hpos j] at he
          exact ⟨j + 1, by omega, he⟩
      · rintro ⟨j, hj, he⟩
        match j with
        | 0 => exact Or.inl he
        | j + 1 =>
          right
          exact ⟨j, by omega, by rw [hpos j]; exact he⟩

theorem resetZeroVariances_parts (f : ℚ) (cov : Nat → ℚ) (s : Bool) (n : Nat) :
    (∀ k, (ResetZeroVariances f cov s kMeanCovariance n).1 k
        = if (∃ i, i < n ∧ k = diagIdx s n i) ∧ cov k = 0 then f else cov k)
      ∧ ((ResetZeroVariances f cov s kMeanCovariance n).2 = true
        ↔ ∃ i, i < n ∧ cov (diagIdx s n i) = 0) := by
  by_cases hn : n = 0
  · subst hn
    constructor
    · intro k
      simp [ResetZeroVariances]
    · simp [ResetZeroVariances]
  · cases s with
    | false =>
      have h := rzvLoop_tri_spec f n 0 2 cov (by omega)
      have hres : ResetZeroVariances f cov false kMeanCovariance n
          = rzvLoop f false kMeanCovariance n 0 2 cov := by
        simp [ResetZeroVariances, hn]
      have hdiag : ∀ i, triPos i 0 2 = diagIdx false n i := by
        intro i
        rw [triPos_zero_two]
        rfl
      constructor
      · intro k
        rw [hres, h.1 k]
        exact if_congr (and_congr_left' (by simp only [hdiag])) rfl rfl
      · rw [hres, h.2]
        simp only [hdiag]
    | true =>
      have h := rzvLoop_sq_spec f n 0 (n + 1) cov (by omega)
      have hres : ResetZeroVariances f cov true kMeanCovariance n
          = rzvLoop f true kMeanCovariance n 0 (n + 1) cov := by
        simp [ResetZeroVariances, hn]
      have hdiag : ∀ i, sqPos i 0 (n + 1) = diagIdx true n i := by
        intro i
        rw [sqPos_eq]
        simp [diagIdx]
      constructor
      · intro k
        rw [hres, h.1 k]
        exact if_congr (and_congr_left' (by simp only [hdiag])) rfl rfl
      · rw [hres, h.2]
        simp only [hdiag]

/-- C5: for every packed covariance matrix (triangular, `s = false`, or
square, `s = true`) in covariance mode, `ResetZeroVariances` replaces each
diagonal entry equal to exactly `0` with the project's zero-variance factor,
leaves every non-diagonal entry unchanged, returns true if and only if at
least one replacement occurred, and running the pass twice yields the same
matrix as running it once. -/
theorem C5_resetZeroVariances_spec (f : ℚ) (cov : Nat → ℚ) (s : Bool) (n : Nat) :
    (∀ k, (ResetZeroVariances f cov s kMeanCovariance n).1 k
        = if (∃ i, i < n ∧ k = diagIdx s n i) ∧ cov k = 0 then f else cov k)
      ∧ ((ResetZeroVariances f cov s kMeanCovariance n).2 = true
        ↔ ∃ i, i < n ∧ cov (diagIdx s n i) = 0)
      ∧ (ResetZeroVariances f
            (ResetZeroVariances f cov s kMeanCovariance n).1 s kMeanCovariance n).1
          = (ResetZeroVariances f cov s kMeanCovariance n).1 := by
  obtain ⟨h1, h2⟩ := resetZeroVariances_parts f cov s n
  refine ⟨h1, h2, ?_⟩
  funext k
  obtain ⟨g1, g2⟩ :=
    resetZeroVariances_parts f (ResetZeroVariances f cov s kMeanCovariance n).1 s n
  rw [g1 k, h1 k]
  by_cases hd : ∃ i, i < n ∧ k = diagIdx s n i
  · by_cases hz : cov k = 0
    · by_cases hf : f = 0
      · simp [hd, hz, hf]
      · simp [hd, hz, hf]
    · simp [hd, hz]
  · simp [hd]

theorem rfaveScanRow_true (cmp : ℚ) (cov : Nat → ℚ) (r : Nat) :
    ∀ idx, (∀ t, t < r → cov (idx + t) = cmp) →
      rfaveScanRow cmp cov r idx = (true, idx + r) := by
  induction r with
  | zero => intro idx _; simp [rfaveScanRow]
  | succ r ih =>
    intro idx h
    have h0 : cmp = cov idx := by
      have := h 0 (by omega)
      simpa using this.symm
    rw [rfaveScanRow, if_pos h0, ih (idx + 1) (fun t ht => by
      have := h (t + 1) (by omega)
      simpa [Nat.add_assoc, Nat.add_comm 1 t] using this)]
    have : idx + 1 + r = idx + (r + 1) := by omega
    rw [this]

theorem rfaveScanRow_false (cmp : ℚ) (cov : Nat → ℚ) (r : Nat) :
    ∀ idx, ¬ (∀ t, t < r → cov (idx + t) = cmp) →
      (rfaveScanRow cmp cov r idx).1 = false := by
  induction r with
  | zero => intro idx h; exact absurd (fun t ht => by omega) h
  | succ r ih =>
    intro idx h
    by_cases h0 : cmp = cov idx
    · rw [rfaveScanRow, if_pos h0]
      apply ih
      intro hall
      apply h
      intro t ht
      match t with
      | 0 => simpa using h0.symm
      | t + 1 =>
        have := hall t (by omega)
        simpa [Nat.add_assoc, Nat.add_comm 1 t] using this
    · rw [rfaveScanRow, if_neg h0]

theorem rfaveScanAll_false (cmp : ℚ) (s : Bool) (cov : Nat → ℚ) (rows : Nat) :
    ∀ f1 idx skip, rfaveScanAll cmp s cov rows f1 idx skip false = false := by
  induction rows with
  | zero => intro f1 idx skip; rfl
  | succ rows ih =>
    intro f1 idx skip
    rw [rfaveScanAll]
    simpa using ih (f1 + 1) _ _

theorem rfaveScanAll_tri (cmp : ℚ) (cov : Nat → ℚ) (rows : Nat) :
    ∀ f1 idx skip flag,
      rfaveScanAll cmp false cov rows f1 idx skip flag
        = (flag && triCheck cmp cov rows f1 idx) := by
  induction rows with
  | zero => intro f1 idx skip flag; simp [rfaveScanAll, triCheck]
  | succ rows ih =>
    intro f1 idx skip flag
    by_cases hrow : ∀ t, t < f1 + 1 → cov (idx + t) = cmp
    · have hrr := rfaveScanRow_true cmp cov (f1 + 1) idx hrow
      rw [rfaveScanAll]
      simp only [hrr, Bool.and_true, if_neg (Bool.false_ne_true)]
      rw [ih]
      have hdec : decide (∀ u, u ≤ f1 → cov (idx + u) = cmp) = true := by
        simp only [decide_eq_true_eq]
        intro u hu
        exact hrow u (by omega)
      rw [triCheck, hdec]
      have : idx + (f1 + 1) = idx + f1 + 1 := by omega
      rw [this]
      simp [Bool.and_assoc]
    · have hrr := rfaveScanRow_false cmp cov (f1 + 1) idx hrow
      rw [rfaveScanAll]
      simp only [hrr, Bool.and_false]
      rw [rfaveScanAll_false]
      have hdec : decide (∀ u, u ≤ f1 → cov (idx + u) = cmp) = false := by
        simp only [decide_eq_false_iff_not]
        intro hall
        exact hrow fun t ht => hall t (by omega)
      rw [triCheck, hdec]
      simp

theorem rfaveScanAll_sq (cmp : ℚ) (cov : Nat → ℚ) (rows : Nat) :
    ∀ f1 idx skip flag,
      rfaveScanAll cmp true cov rows f1 idx skip flag
        = (flag && sqCheck cmp cov rows f1 idx skip) := by
  induction rows with
  | zero => intro f1 idx skip flag; simp [rfaveScanAll, sqCheck]
  | succ rows ih =>
    intro f1 idx skip flag
    by_cases hrow : ∀ t, t < f1 + 1 → cov (idx + t) = cmp
    · have hrr := rfaveScanRow_true cmp cov (f1 + 1) idx hrow
      rw [rfaveScanAll]
      simp only [hrr, Bool.and_true, if_pos rfl]
      rw [ih]
      have hdec : decide (∀ u, u ≤ f1 → cov (idx + u) = cmp) = true := by
        simp only [decide_eq_true_eq]
        intro u hu
        exact hrow u (by omega)
      rw [sqCheck, hdec]
      have : idx + (f1 + 1) + skip = idx + f1 + 1 + skip := by omega
      rw [this]
      simp [Bool.and_assoc]
    · have hrr := rfaveScanRow_false cmp cov (f1 + 1) idx hrow
      rw [rfaveScanAll]
      simp only [hrr, Bool.and_false]
      rw [rfaveScanAll_false]
      have hdec : decide (∀ u, u ≤ f1 → cov (idx + u) = cmp) = false := by
        simp only [decide_eq_false_iff_not]
        intro hall
        exact hrow fun t ht => hall t (by omega)
      rw [sqCheck, hdec]
      simp

theorem triIdx_col (i : Nat) : ∀ j, triIdx i j = triIdx i 0 + j := by
  cases i with
  | zero => intro j; simp [triIdx]
  | succ i => intro j; simp [triIdx]

theorem triIdx_succ_row (i : Nat) : triIdx (i + 1) 0 = triIdx i 0 + i + 1 := by
  show triIdx i i + 1 + 0 = triIdx i 0 + i + 1
  rw [triIdx_col i i]

theorem triCheck_eq (cmp : ℚ) (cov : Nat → ℚ) (rows : Nat) :
    ∀ f1, triCheck cmp cov rows f1 (triIdx f1 0)
      = decide (∀ t, t < rows → ∀ u, u ≤ f1 + t → cov (triIdx (f1 + t) u) = cmp) := by
  induction rows with
  | zero => intro f1; simp [triCheck]
  | succ rows ih =>
    intro f1
    rw [triCheck]
    have hidx : triIdx f1 0 + f1 + 1 = triIdx (f1 + 1) 0 := by
      rw [triIdx_succ_row]
    rw [hidx, ih (f1 + 1)]
    apply Bool.eq_iff_iff.mpr
    simp only [Bool.and_eq_true, decide_eq_true_eq]
    constructor
    · rintro ⟨hrow, hrest⟩ t ht u hu
      match t with
      | 0 =>
        have := hrow u (by omega)
        rwa [← triIdx_col] at this
      | t + 1 =>
        have := hrest t (by omega) u (by omega)
        have harr : f1 + 1 + t = f1 + (t + 1) := by omega
        rwa [harr] at this
    · intro hall
      constructor
      · intro u hu
        have := hall 0 (by omega) u (by simpa using hu)
        rw [← triIdx_col]
        simpa using this
      · intro t ht u hu
        have := hall (t + 1) (by omega) u (by omega)
        have harr : f1 + (t + 1) = f1 + 1 + t := by omega
        rwa [harr] at this

theorem sqCheck_eq (cmp : ℚ) (cov : Nat → ℚ) (n : Nat) (rows : Nat) :
    ∀ f1 idx skip, skip + f1 + 1 = n → rows + f1 ≤ n →
      sqCheck cmp cov rows f1 idx skip
        = decide (∀ t, t < rows → ∀ u, u ≤ f1 + t → cov (idx + t * n + u) = cmp) := by
  induction rows with
  | zero => intro f1 idx skip _ _; simp [sqCheck]
  | succ rows ih =>
    intro f1 idx skip hinv hrows
    rw [sqCheck]
    rcases Nat.eq_zero_or_pos rows with hr0 | hrpos
    · subst hr0
      rw [sqCheck, Bool.and_true]
      apply Bool.eq_iff_iff.mpr
      simp only [decide_eq_true_eq]
      constructor
      · intro hrow t ht u hu
        match t with
        | 0 =>
          have := hrow u (by omega)
          simpa using this
      · intro hall u hu
        have := hall 0 (by omega) u (by simpa using hu)
        simpa using this
    · have hskip : 1 ≤ skip := by omega
      have hinv1 : (skip - 1) + (f1 + 1) + 1 = n := by omega
      have hrows1 : rows + (f1 + 1) ≤ n := by omega
      rw [ih (f1 + 1) (idx + f1 + 1 + skip) (skip - 1) hinv1 hrows1]
      apply Bool.eq_iff_iff.mpr
      simp only [Bool.and_eq_true, decide_eq_true_eq]
      have hn : idx + f1 + 1 + skip = idx + n := by omega
      constructor
      · rintro ⟨hrow, hrest⟩ t ht u hu
        match t with
        | 0 =>
          have := hrow u (by omega)
          simpa using this
        | t + 1 =>
          have := hrest t (by omega) u (by omega)
          rw [hn] at this
          have harr : idx + n + t * n + u = idx + (t + 1) * n + u := by
            rw [Nat.succ_mul]
            omega
          rwa [harr] at this
          -- also f1 + 1 + t = f1 + (t+1) handled by omega in hu
      · intro hall
        constructor
        · intro u hu
          have := hall 0 (by omega) u (by simpa using hu)
          simpa using this
        · intro t ht u hu
          have := hall (t + 1) (by omega) u (by omega)
          rw [hn]
          have harr : idx + (t + 1) * n + u = idx + n + t * n + u := by
            rw [Nat.succ_mul]
            omega
          rwa [harr] at this

theorem rfaveZeroRow_spec (r : Nat) :
    ∀ (idx : Nat) (cov : Nat → ℚ),
      rfaveZeroRow r idx cov
        = (fun k => if idx ≤ k ∧ k < idx + r then 0 else cov k, idx + r) := by
  induction r with
  | zero =>
    intro idx cov
    rw [rfaveZeroRow]
    refine Prod.ext ?_ rfl
    funext k
    have h : ¬ (idx ≤ k ∧ k < idx) := by omega
    simp [h]
  | succ r ih =>
    intro idx cov
    rw [rfaveZeroRow, ih]
    refine Prod.ext ?_ (by omega)
    funext k
    by_cases hk : k = idx
    · subst hk
      have h1 : ¬ (k + 1 ≤ k ∧ k < k + 1 + r) := by omega
      have h2 : k ≤ k ∧ k < k + (r + 1) := by omega
      simp [h1, h2, Function.update]
    · by_cases h1 : idx + 1 ≤ k ∧ k < idx + 1 + r
      · have h2 : idx ≤ k ∧ k < idx + (r + 1) := by omega
        simp [h1, h2]
      · by_cases h2 : idx ≤ k ∧ k < idx + (r + 1)
        · exact absurd h2 (by omega)
        · simp [h1, h2, Function.update, hk]

theorem rfaveZeroAll_tri (rows : Nat) :
    ∀ (f1 skip : Nat) (cov : Nat → ℚ),
      rfaveZeroAll false rows f1 (triIdx f1 0) skip cov
        = fun k =>
            if ∃ t, t < rows ∧ ∃ u, u < f1 + t ∧ k = triIdx (f1 + t) u then 0
            else cov k := by
  induction rows with
  | zero =>
    intro f1 skip cov
    rw [rfaveZeroAll]
    funext k
    have h : ¬ ∃ t, t < 0 ∧ ∃ u, u < f1 + t ∧ k = triIdx (f1 + t) u := by
      rintro ⟨t, ht, _⟩
      omega
    simp [h]
  | succ rows ih =>
    intro f1 skip cov
    rw [rfaveZeroAll]
    simp only [rfaveZeroRow_spec, if_neg Bool.false_ne_true]
    have hidx : triIdx f1 0 + f1 + 1 = triIdx (f1 + 1) 0 := by
      rw [triIdx_succ_row]
    rw [hidx, ih (f1 + 1) skip]
    funext k
    by_cases hC : ∃ t, t < rows + 1 ∧ ∃ u, u < f1 + t ∧ k = triIdx (f1 + t) u
    · rw [if_pos hC]
      obtain ⟨t, ht, u, hu, he⟩ := hC
      match t with
      | 0 =>
        simp only [Nat.add_zero] at he hu
        have hrow : triIdx f1 0 ≤ k ∧ k < triIdx f1 0 + f1 := by
          rw [he, triIdx_col f1 u]
          omega
        by_cases hrec : ∃ t, t < rows ∧ ∃ u, u < f1 + 1 + t ∧ k = triIdx (f1 + 1 + t) u
        · rw [if_pos hrec]
        · rw [if_neg hrec, if_pos hrow]
      | t + 1 =>
        have hrec : ∃ s, s < rows ∧ ∃ u, u < f1 + 1 + s ∧ k = triIdx (f1 + 1 + s) u := by
          refine ⟨t, by omega, u, by omega, ?_⟩
          have harr : f1 + 1 + t = f1 + (t + 1) := by omega
          rw [harr]
          exact he
        rw [if_pos hrec]
    · rw [if_neg hC]
      have hrec : ¬ ∃ t, t < rows ∧ ∃ u, u < f1 + 1 + t ∧ k = triIdx (f1 + 1 + t) u := by
        rintro ⟨t, ht, u, hu, he⟩
        apply hC
        refine ⟨t + 1, by omega, u, by omega, ?_⟩
        have harr : f1 + (t + 1) = f1 + 1 + t := by omega
        rw [harr]
        exact he
      rw [if_neg hrec]
      have hrow : ¬ (triIdx f1 0 ≤ k ∧ k < triIdx f1 0 + f1) := by
        rintro ⟨ha, hb⟩
        apply hC
        refine ⟨0, by omega, k - triIdx f1 0, by omega, ?_⟩
        rw [Nat.add_zero, triIdx_col]
        omega
      rw [if_neg hrow]

theorem rfaveZeroAll_sq (n : Nat) (rows : Nat) :
    ∀ (f1 idx skip : Nat) (cov : Nat → ℚ), skip + f1 + 1 = n → rows + f1 ≤ n →
      rfaveZeroAll true rows f1 idx skip cov
        = fun k =>
            if ∃ t, t < rows ∧ ∃ u, u < f1 + t ∧ k = idx + t * n + u then 0
            else cov k := by
  induction rows with
  | zero =>
    intro f1 idx skip cov _ _
    rw [rfaveZeroAll]
    funext k
    have h : ¬ ∃ t, t < 0 ∧ ∃ u, u < f1 + t ∧ k = idx + t * n + u := by
      rintro ⟨t, ht, _⟩
      omega
    simp [h]
  | succ rows ih =>
    intro f1 idx skip cov hinv hrows
    rw [rfaveZeroAll]
    simp only [rfaveZeroRow_spec, eq_self_iff_true, if_true]
    rcases Nat.eq_zero_or_pos rows with hr0 | hrpos
    · subst hr0
      rw [rfaveZeroAll]
      funext k
      by_cases hC : ∃ t, t < 1 ∧ ∃ u, u < f1 + t ∧ k = idx + t * n + u
      · rw [if_pos hC]
        obtain ⟨t, ht, u, hu, he⟩ := hC
        match t with
        | 0 =>
          have hrow : idx ≤ k ∧ k < idx + f1 := by
            constructor <;> omega
          rw [if_pos hrow]
      · have hrow : ¬ (idx ≤ k ∧ k < idx + f1) := by
          rintro ⟨ha, hb⟩
          exact hC ⟨0, by omega, k - idx, by omega, by omega⟩
        rw [if_neg hC, if_neg hrow]
    · have hskip : 1 ≤ skip := by omega
      have hinv1 : (skip - 1) + (f1 + 1) + 1 = n := by omega
      have hrows1 : rows + (f1 + 1) ≤ n := by omega
      have hn : idx + f1 + 1 + skip = idx + n := by omega
      rw [hn, ih (f1 + 1) (idx + n) (skip - 1) _ hinv1 hrows1]
      funext k
      by_cases hC : ∃ t, t < rows + 1 ∧ ∃ u, u < f1 + t ∧ k = idx + t * n + u
      · rw [if_pos hC]
        obtain ⟨t, ht, u, hu, he⟩ := hC
        match t with
        | 0 =>
          have hrow : idx ≤ k ∧ k < idx + f1 := by
            constructor <;> omega
          by_cases hrec : ∃ t, t < rows ∧ ∃ u, u < f1 + 1 + t ∧ k = idx + n + t * n + u
          · rw [if_pos hrec]
          · rw [if_neg hrec, if_pos hrow]
        | t + 1 =>
          have hrec : ∃ s, s < rows ∧ ∃ u, u < f1 + 1 + s ∧ k = idx + n + s * n + u := by
            refine ⟨t, by omega, u, by omega, ?_⟩
            rw [he, Nat.succ_mul]
            omega
          rw [if_pos hrec]
      · rw [if_neg hC]
        have hrec : ¬ ∃ t, t < rows ∧ ∃ u, u < f1 + 1 + t ∧ k = idx + n + t * n + u := by
          rintro ⟨t, ht, u, hu, he⟩
          apply hC
          refine ⟨t + 1, by omega, u, by omega, ?_⟩
          rw [Nat.succ_mul]
          omega
        have hrow : ¬ (idx ≤ k ∧ k < idx + f1) := by
          rintro ⟨ha, hb⟩
          exact hC ⟨0, by omega, k - idx, by omega, by omega⟩
        rw [if_neg hrec, if_neg hrow]

theorem triIdx_row_le_add (i : Nat) : ∀ d, triIdx i 0 ≤ triIdx (i + d) 0 := by
  intro d
  induction d with
  | zero => exact Nat.le_refl _
  | succ d ih =>
    have : i + (d + 1) = (i + d) + 1 := by omega
    rw [this, triIdx_succ_row]
    omega

theorem triIdx_row_mono {i i' : Nat} (h : i ≤ i') : triIdx i 0 ≤ triIdx i' 0 := by
  have := triIdx_row_le_add i (i' - i)
  have harr : i + (i' - i) = i' := by omega
  rwa [harr] at this

theorem triIdx_lt_of_row_lt {i j i' j' : Nat} (hj : j ≤ i) (hlt : i < i') :
    triIdx i j < triIdx i' j' := by
  have h1 : triIdx i j = triIdx i 0 + j := triIdx_col i j
  have h2 : triIdx (i + 1) 0 = triIdx i 0 + i + 1 := triIdx_succ_row i
  have h3 : triIdx (i + 1) 0 ≤ triIdx i' 0 := triIdx_row_mono (by omega)
  have h4 : triIdx i' j' = triIdx i' 0 + j' := triIdx_col i' j'
  omega

theorem triIdx_inj {i j i' j' : Nat} (hj : j ≤ i) (hj' : j' ≤ i')
    (h : triIdx i j = triIdx i' j') : i = i' ∧ j = j' := by
  rcases Nat.lt_trichotomy i i' with hlt | heq | hgt
  · exact absurd h (Nat.ne_of_lt (triIdx_lt_of_row_lt hj hlt))
  · subst heq
    rw [triIdx_col i j, triIdx_col i j'] at h
    omega
  · exact absurd h.symm (Nat.ne_of_lt (triIdx_lt_of_row_lt hj' hgt))

theorem sq_decode (n t u : Nat) (hu : u < n) :
    (t * n + u) / n = t ∧ (t * n + u) % n = u := by
  have hn : 0 < n := by omega
  have h1 : t * n + u = u + t * n := by omega
  constructor
  · rw [h1, Nat.add_mul_div_right _ _ hn, Nat.div_eq_of_lt hu]
    omega
  · rw [h1, Nat.add_mul_mod_self_right, Nat.mod_eq_of_lt hu]

/-- C6: `ResetForAllVariancesEqual` returns false and leaves the matrix
unchanged whenever `numberFeatures ≤ 1` or the statistics code is mean-only;
otherwise it returns true if and only if every lower-triangular entry
(diagonal and off-diagonal) is identical to the first diagonal entry, and
exactly in that case it sets all off-diagonal entries to 0, leaves the
diagonal entries untouched, and mirrors the lower triangle to the upper
triangle when square output is requested. -/
theorem C6_resetForAllVariancesEqual (cov : Nat → ℚ) (s : Bool) (code n : Nat) :
    ((n ≤ 1 ∨ code = kMeanStdDevOnly) →
        ResetForAllVariancesEqual cov s code n = (cov, false))
    ∧ (2 ≤ n → code ≠ kMeanStdDevOnly →
        (((ResetForAllVariancesEqual cov s code n).2 = true)
            ↔ allEqualLower s n cov)
        ∧ (allEqualLower s n cov →
            (s = false → ∀ i, i < n → ∀ j, j ≤ i →
              (ResetForAllVariancesEqual cov s code n).1 (triIdx i j)
                = if j = i then cov (triIdx i i) else 0)
            ∧ (s = true → ∀ i, i < n → ∀ j, j < n →
              (ResetForAllVariancesEqual cov s code n).1 (i * n + j)
                = if i = j then cov (i * n + i) else 0))) := by
  constructor
  · intro h
    rw [ResetForAllVariancesEqual, if_pos h]
  · intro hn hcode
    have hguard : ¬ (n ≤ 1 ∨ code = kMeanStdDevOnly) := by
      push_neg
      exact ⟨by omega, hcode⟩
    cases s with
    | false =>
      have hscan : rfaveScanAll (cov 0) false cov n 0 0 (n - 1) true
          = decide (allEqualLower false n cov) := by
        rw [rfaveScanAll_tri, Bool.true_and]
        have h := triCheck_eq (cov 0) cov n 0
        simp only [triIdx, Nat.zero_add] at h
        rw [h]
        apply decide_eq_decide.mpr
        constructor
        · intro hall i hi j hj
          exact hall i hi j hj
        · intro hall t ht u hu
          exact hall t ht u hu
      have hres : ResetForAllVariancesEqual cov false code n
          = if decide (allEqualLower false n cov) then
              (rfaveZeroAll false n 0 0 (n - 1) cov, true)
            else (cov, false) := by
        rw [ResetForAllVariancesEqual, if_neg hguard]
        simp only [hscan, if_neg Bool.false_ne_true]
      constructor
      · rw [hres]
        by_cases hall : allEqualLower false n cov
        · simp [hall]
        · simp [hall]
      · intro hall
        refine ⟨?_, by simp⟩
        intro _ i hi j hj
        rw [hres, if_pos (by simpa using hall)]
        simp only
        have hz := rfaveZeroAll_tri n 0 (n - 1) cov
        simp only [triIdx, Nat.zero_add] at hz
        simp only [hz]
        by_cases hji : j = i
        · subst hji
          have hne : ¬ ∃ t, t < n ∧ ∃ u, u < t ∧ triIdx j j = triIdx t u := by
            rintro ⟨t, ht, u, hu, he⟩
            obtain ⟨h1, h2⟩ := triIdx_inj (Nat.le_refl j) (by omega) he
            omega
          rw [if_neg hne, if_pos rfl]
        · have hyes : ∃ t, t < n ∧ ∃ u, u < t ∧ triIdx i j = triIdx t u := by
            exact ⟨i, hi, j, by omega, rfl⟩
          rw [if_pos hyes, if_neg hji]
    | true =>
      have hscan : rfaveScanAll (cov 0) true cov n 0 0 (n - 1) true
          = decide (allEqualLower true n cov) := by
        rw [rfaveScanAll_sq, Bool.true_and,
          sqCheck_eq (cov 0) cov n n 0 0 (n - 1) (by omega) (by omega)]
        apply decide_eq_decide.mpr
        constructor
        · intro hall i hi j hj
          have := hall i hi j (by omega)
          simpa using this
        · intro hall t ht u hu
          have := hall t ht u (by omega)
          simpa using this
      have hres : ResetForAllVariancesEqual cov true code n
          = if decide (allEqualLower true n cov) then
              (CopyLowerToUpperSquareMatrix n
                (rfaveZeroAll true n 0 0 (n - 1) cov), true)
            else (cov, false) := by
        rw [ResetForAllVariancesEqual, if_neg hguard]
        simp only [hscan, eq_self_iff_true, if_true]
      constructor
      · rw [hres]
        by_cases hall : allEqualLower true n cov
        · simp [hall]
        · simp [hall]
      · intro hall
        refine ⟨by simp, ?_⟩
        intro _ i hi j hj
        rw [hres, if_pos (by simpa using hall)]
        simp only
        have hz := rfaveZeroAll_sq n n 0 0 (n - 1) cov (by omega) (by omega)
        have hz1 : ∀ k, rfaveZeroAll true n 0 0 (n - 1) cov k
            = if ∃ t, t < n ∧ ∃ u, u < t ∧ k = t * n + u then 0 else cov k := by
          intro k
          rw [hz]
          simp only [Nat.zero_add]
        have hdn : (i * n + j) / n = i ∧ (i * n + j) % n = j := sq_decode n i j hj
        rcases Nat.lt_trichotomy i j with hij | hij | hij
        · -- upper-right entry: mirrored from the lower triangle
          have hcond : (i * n + j) / n < n ∧ (i * n + j) / n < (i * n + j) % n := by
            rw [hdn.1, hdn.2]
            exact ⟨hi, hij⟩
          have hmir : CopyLowerToUpperSquareMatrix n
                (rfaveZeroAll true n 0 0 (n - 1) cov) (i * n + j)
              = rfaveZeroAll true n 0 0 (n - 1) cov
                  (((i * n + j) % n) * n + (i * n + j) / n) := by
            simp only [CopyLowerToUpperSquareMatrix]
            rw [if_pos hcond]
          rw [hmir, hdn.1, hdn.2, hz1 (j * n + i)]
          have hyes : ∃ t, t < n ∧ ∃ u, u < t ∧ j * n + i = t * n + u :=
            ⟨j, hj, i, hij, rfl⟩
          rw [if_pos hyes, if_neg (show ¬ i = j by omega)]
        · subst hij
          have hcond : ¬ ((i * n + i) / n < n ∧ (i * n + i) / n < (i * n + i) % n) := by
            have hd := sq_decode n i i hi
            rw [hd.1, hd.2]
            omega
          have hmir : CopyLowerToUpperSquareMatrix n
                (rfaveZeroAll true n 0 0 (n - 1) cov) (i * n + i)
              = rfaveZeroAll true n 0 0 (n - 1) cov (i * n + i) := by
            simp only [CopyLowerToUpperSquareMatrix]
            rw [if_neg hcond]
          rw [hmir, hz1 (i * n + i)]
          have hne : ¬ ∃ t, t < n ∧ ∃ u, u < t ∧ i * n + i = t * n + u := by
            rintro ⟨t, ht, u, hu, he⟩
            have hd1 := sq_decode n i i hi
            have hd2 := sq_decode n t u (by omega)
            rw [he] at hd1
            omega
          rw [if_neg hne, if_pos rfl]
        · have hcond : ¬ ((i * n + j) / n < n ∧ (i * n + j) / n < (i * n + j) % n) := by
            rw [hdn.1, hdn.2]
            omega
          have hmir : CopyLowerToUpperSquareMatrix n
                (rfaveZeroAll true n 0 0 (n - 1) cov) (i * n + j)
              = rfaveZeroAll true n 0 0 (n - 1) cov (i * n + j) := by
            simp only [CopyLowerToUpperSquareMatrix]
            rw [if_neg hcond]
          rw [hmir, hz1 (i * n + j)]
          have hyes : ∃ t, t < n ∧ ∃ u, u < t ∧ i * n + j = t * n + u :=
            ⟨i, hi, j, hij, rfl⟩
          rw [if_pos hyes, if_neg (show ¬ i = j by omega)]

/-- Witness for C6: the all-equal-variance pass applied to a concrete 3 × 3
triangular matrix whose entries are all 7. -/
theorem C6_resetForAllVariancesEqual_witness :
    (2 ≤ 3 ∧ kMeanCovariance ≠ kMeanStdDevOnly) ∧
      (((ResetForAllVariancesEqual c6exCov false kMeanCovariance 3).2 = true)
        ↔ allEqualLower false 3 c6exCov) :=
  ⟨⟨by omega, by decide⟩,
    ((C6_resetForAllVariancesEqual c6exCov false kMeanCovariance 3).2
      (by omega) (by decide)).1⟩

theorem checkFieldsLoop_eq_chain (fields : Nat → FieldIdentifier) (fuel : Nat) :
    ∀ (fn : Int) (L : List Nat), fieldChain fields fuel fn = some L →
      checkFieldsLoop fields fuel fn
        = some (decide (∀ i ∈ L, (fields i).fieldType = kTrainingType →
            (fields i).loadedIntoClassStats = true)) := by
  induction fuel with
  | zero =>
    intro fn L h
    rw [fieldChain] at h
    rw [checkFieldsLoop]
    by_cases hfn : fn = -1
    · rw [if_pos hfn] at h ⊢
      have hL : L = [] := by
        have := h
        simp only [Option.some.injEq] at this
        exact this.symm
      subst hL
      simp
    · rw [if_neg hfn] at h
      exact absurd h (by simp)
  | succ fuel ih =>
    intro fn L h
    rw [fieldChain] at h
    rw [checkFieldsLoop]
    by_cases hfn : fn = -1
    · rw [if_pos hfn] at h ⊢
      have hL : L = [] := by
        simp only [Option.some.injEq] at h
        exact h.symm
      subst hL
      simp
    · rw [if_neg hfn] at h ⊢
      cases hrec : fieldChain fields fuel (fields fn.toNat).nextField with
      | none =>
        rw [hrec] at h
        exact absurd h (by simp)
      | some l =>
        rw [hrec] at h
        simp only [Option.some.injEq] at h
        have hL : L = fn.toNat :: l := h.symm
        subst hL
        by_cases hbad : (fields fn.toNat).fieldType = kTrainingType
            ∧ (fields fn.toNat).loadedIntoClassStats = false
        · rw [if_pos hbad]
          have hnot : ¬ ∀ i ∈ fn.toNat :: l,
              (fields i).fieldType = kTrainingType →
                (fields i).loadedIntoClassStats = true := by
            intro hall
            have := hall fn.toNat (List.mem_cons_self _ _) hbad.1
            rw [hbad.2] at this
            exact Bool.false_ne_true this
          rw [decide_eq_false hnot]
        · rw [if_neg hbad, ih _ l hrec]
          have hhead : (fields fn.toNat).fieldType = kTrainingType →
              (fields fn.toNat).loadedIntoClassStats = true := by
            intro htype
            rcases Bool.eq_false_or_eq_true (fields fn.toNat).loadedIntoClassStats
              with hT | hF
            · exact hT
            · exact absurd ⟨htype, hF⟩ hbad
          congr 1
          apply decide_eq_decide.mpr
          rw [List.forall_mem_cons]
          constructor
          · intro hl
            exact ⟨hhead, hl⟩
          · intro hl
            exact hl.2

/-- C1 (amended): for every in-range class with at least one training field
whose `statsUpToDate` flag is not already set, `FinishClassStatsUpdate`
returns true if and only if every training field on the class's field chain
has `loadedIntoClassStats == true`, computes the class-level
mean/standard-deviation vector as a side effect exactly when
`keepClassStatsOnlyFlag` is set, and stores the returned up-to-date boolean
back onto the class record's `statsUpToDate` flag. -/
theorem C1_finishClassStatsUpdate (proj : ProjectInfo) (fuel : Nat)
    (classNumber : Nat) (L : List Nat)
    (hc : classNumber < proj.numberStatisticsClasses)
    (ht : 0 < (proj.classNames (proj.storageClass classNumber)).numberOfTrainFields)
    (hs : (proj.classNames (proj.storageClass classNumber)).statsUpToDate = false)
    (hchain : fieldChain proj.fieldIdent fuel
        (proj.classNames (proj.storageClass classNumber)).firstFieldNumber
          = some L) :
    ∃ result : Bool × ProjectInfo,
      FinishClassStatsUpdate proj fuel classNumber = some result
      ∧ (result.1 = true ↔ ∀ i ∈ L,
            (proj.fieldIdent i).fieldType = kTrainingType →
              (proj.fieldIdent i).loadedIntoClassStats = true)
      ∧ (result.2.classNames (proj.storageClass classNumber)).statsUpToDate
          = result.1
      ∧ result.2.classChanStats
          = (if proj.keepClassStatsOnlyFlag then
              ComputeMeanStdDevVectorClass proj (proj.storageClass classNumber)
            else proj.classChanStats) := by
  have hcheck := checkFieldsLoop_eq_chain proj.fieldIdent fuel _ L hchain
  simp only [FinishClassStatsUpdate]
  rw [if_neg (by omega), if_pos ⟨ht, hs⟩, hcheck]
  refine ⟨_, rfl, ?_, ?_, ?_⟩
  · simp
  · simp [Function.update]
  · by_cases hk : proj.keepClassStatsOnlyFlag
    · simp [hk]
    · simp [hk]

/-- C1 counterexample: a class whose single training field has been loaded
into the class statistics, but whose `statsUpToDate` flag is already set:
`FinishClassStatsUpdate` skips the check block and returns false (also
clearing the flag), although every training field of the class has
`loadedIntoClassStats == true` — refuting the claimed equivalence for every
class with at least one training field. -/
theorem C1_counterexample :
    (0 < (c1exProj.classNames 0).numberOfTrainFields
      ∧ (c1exProj.fieldIdent 0).fieldType = kTrainingType
      ∧ (c1exProj.fieldIdent 0).loadedIntoClassStats = true
      ∧ fieldChain c1exProj.fieldIdent 2
          (c1exProj.classNames 0).firstFieldNumber = some [0])
    ∧ (FinishClassStatsUpdate c1exProj 2 0).map Prod.fst = some false := by
  constructor
  · exact ⟨by decide, rfl, rfl, by decide⟩
  · rfl

/-- Witness for C1: the amended theorem applied to a concrete one-class
project whose up-to-date flag is clear. -/
theorem C1_finishClassStatsUpdate_witness :
    (0 < c1wProj.numberStatisticsClasses
      ∧ 0 < (c1wProj.classNames (c1wProj.storageClass 0)).numberOfTrainFields
      ∧ (c1wProj.classNames (c1wProj.storageClass 0)).statsUpToDate = false
      ∧ fieldChain c1wProj.fieldIdent 2
          (c1wProj.classNames (c1wProj.storageClass 0)).firstFieldNumber
            = some [0])
    ∧ ∃ result : Bool × ProjectInfo,
        FinishClassStatsUpdate c1wProj 2 0 = some result
        ∧ (result.1 = true ↔ ∀ i ∈ [0],
              (c1wProj.fieldIdent i).fieldType = kTrainingType →
                (c1wProj.fieldIdent i).loadedIntoClassStats = true)
        ∧ (result.2.classNames (c1wProj.storageClass 0)).statsUpToDate = result.1
        ∧ result.2.classChanStats
            = (if c1wProj.keepClassStatsOnlyFlag then
                ComputeMeanStdDevVectorClass c1wProj (c1wProj.storageClass 0)
              else c1wProj.classChanStats) :=
  ⟨⟨by decide, by decide, rfl, by decide⟩,
    C1_finishClassStatsUpdate c1wProj 2 0 [0] (by decide) (by decide) rfl
      (by decide)⟩

theorem spcClassOutcome_eq_record (cn : ClassNames) (input : Nat) :
    spcClassOutcome cn input = (spcClassRecord cn input).covarianceStatsToUse := by
  simp only [spcClassOutcome, spcClassRecord]
  split_ifs <;> rfl

theorem spcClassOutcome_ne_mixed (cn : ClassNames) (input : Nat) :
    spcClassOutcome cn input ≠ kMixedStats := by
  simp only [spcClassOutcome]
  by_cases hmx : cn.covarianceStatsToUse = kMixedStats <;>
    by_cases hin : input = kMixedStats <;>
      simp only [hmx, hin, if_pos, if_neg, ite_true, ite_false, ne_eq,
        not_true, not_false_iff] <;>
    split_ifs <;>
    simp_all [kOriginalStats, kEnhancedStats, kMixedStats]

theorem spcClassRecord_modFlag (cn : ClassNames) (input : Nat) :
    (spcClassRecord cn input).modifiedStatsFlag = cn.modifiedStatsFlag := by
  simp only [spcClassRecord]
  split_ifs <;> rfl

theorem spcStep_storageClass (input : Nat) (proj : ProjectInfo)
    (ci tracked : Nat) (enh : Bool) :
    (spcStep input proj ci tracked enh).1.storageClass = proj.storageClass := by
  simp only [spcStep]
  split_ifs <;> rfl

theorem spcStep_numberClasses (input : Nat) (proj : ProjectInfo)
    (ci tracked : Nat) (enh : Bool) :
    (spcStep input proj ci tracked enh).1.numberStatisticsClasses
      = proj.numberStatisticsClasses := by
  simp only [spcStep]
  split_ifs <;> rfl

theorem spcStep_classNames_other (input : Nat) (proj : ProjectInfo)
    (ci tracked : Nat) (enh : Bool) (slot : Nat)
    (hslot : slot ≠ proj.storageClass ci) :
    (spcStep input proj ci tracked enh).1.classNames slot
      = proj.classNames slot := by
  simp only [spcStep]
  split_ifs <;> simp [Function.update, hslot]

theorem spcStep_classNames_self (input : Nat) (proj : ProjectInfo)
    (ci tracked : Nat) (enh : Bool) :
    (spcStep input proj ci tracked enh).1.classNames (proj.storageClass ci)
      = spcClassRecord (proj.classNames (proj.storageClass ci)) input := by
  by_cases hmx : (proj.classNames (proj.storageClass ci)).covarianceStatsToUse
      = kMixedStats <;>
    by_cases hin : input = kMixedStats <;>
      simp only [spcStep, spcClassRecord, hmx, hin, ne_eq, not_true, not_false_iff,
        ite_true, ite_false, if_pos, if_neg] <;>
      split_ifs <;>
      simp_all [Function.update]

theorem spcStep_tracked (input : Nat) (proj : ProjectInfo)
    (ci tracked : Nat) (enh : Bool) :
    (spcStep input proj ci tracked enh).2.1
      = (if ci = 0 then
          spcClassOutcome (proj.classNames (proj.storageClass ci)) input
        else if tracked ≠ kMixedStats
            ∧ tracked ≠ spcClassOutcome (proj.classNames (proj.storageClass ci))
                input then
          kMixedStats
        else tracked) := by
  by_cases hmx : (proj.classNames (proj.storageClass ci)).covarianceStatsToUse
      = kMixedStats <;>
    by_cases hin : input = kMixedStats <;>
      simp only [spcStep, spcClassOutcome, hmx, hin, ne_eq, not_true,
        not_false_iff, ite_true, ite_false, if_pos, if_neg] <;>
      split_ifs <;>
      simp_all

theorem spcStep_enh (input : Nat) (proj : ProjectInfo)
    (ci tracked : Nat) (enh : Bool) :
    (spcStep input proj ci tracked enh).2.2
      = (enh || (proj.classNames (proj.storageClass ci)).modifiedStatsFlag) := by
  by_cases hmx : (proj.classNames (proj.storageClass ci)).covarianceStatsToUse
      = kMixedStats <;>
    by_cases hin : input = kMixedStats <;>
      simp only [spcStep, hmx, hin, ne_eq, not_true, not_false_iff,
        ite_true, ite_false, if_pos, if_neg]

theorem spcStep_modFlag (input : Nat) (proj : ProjectInfo)
    (ci tracked : Nat) (enh : Bool) (slot : Nat) :
    ((spcStep input proj ci tracked enh).1.classNames slot).modifiedStatsFlag
      = (proj.classNames slot).modifiedStatsFlag := by
  by_cases hslot : slot = proj.storageClass ci
  · subst hslot
    rw [spcStep_classNames_self, spcClassRecord_modFlag]
  · rw [spcStep_classNames_other input proj ci tracked enh slot hslot]

theorem spcLoop_spec (input : Nat) (r : Nat) :
    ∀ (ci : Nat) (proj : ProjectInfo) (tracked : Nat) (enh : Bool),
      1 ≤ ci →
      (∀ a b, ci ≤ a → a < ci + r → ci ≤ b → b < ci + r →
          proj.storageClass a = proj.storageClass b → a = b) →
      (spcLoop input r ci proj tracked enh).1.storageClass = proj.storageClass
      ∧ (spcLoop input r ci proj tracked enh).1.numberStatisticsClasses
          = proj.numberStatisticsClasses
      ∧ (∀ slot, (spcLoop input r ci proj tracked enh).1.classNames slot
          = if ∃ t, t < r ∧ slot = proj.storageClass (ci + t) then
              spcClassRecord (proj.classNames slot) input
            else proj.classNames slot)
      ∧ (spcLoop input r ci proj tracked enh).2.1
          = (if tracked = kMixedStats then kMixedStats
            else if ∀ t, t < r →
                spcClassOutcome (proj.classNames (proj.storageClass (ci + t)))
                  input = tracked then tracked
            else kMixedStats)
      ∧ (spcLoop input r ci proj tracked enh).2.2
          = (enh || decide (∃ t, t < r ∧
              (proj.classNames (proj.storageClass (ci + t))).modifiedStatsFlag
                = true)) := by
  induction r with
  | zero =>
    intro ci proj tracked enh hci hinj
    refine ⟨rfl, rfl, ?_, ?_, ?_⟩
    · intro slot
      have h : ¬ ∃ t, t < 0 ∧ slot = proj.storageClass (ci + t) := by
        rintro ⟨t, ht, _⟩
        omega
      rw [spcLoop, if_neg h]
    · by_cases h : tracked = kMixedStats
      · simp [spcLoop, h]
      · simp [spcLoop, h]
    · simp [spcLoop]
  | succ r ih =>
    intro ci proj tracked enh hci hinj
    have hstep : spcLoop input (r + 1) ci proj tracked enh
        = spcLoop input r (ci + 1) (spcStep input proj ci tracked enh).1
            (spcStep input proj ci tracked enh).2.1
            (spcStep input proj ci tracked enh).2.2 := by
      rw [spcLoop]
    set s := spcStep input proj ci tracked enh with hs
    have hsc : s.1.storageClass = proj.storageClass := spcStep_storageClass ..
    have hinj1 : ∀ a b, ci + 1 ≤ a → a < ci + 1 + r → ci + 1 ≤ b →
        b < ci + 1 + r → s.1.storageClass a = s.1.storageClass b → a = b := by
      intro a b ha1 ha2 hb1 hb2 heq
      rw [hsc] at heq
      exact hinj a b (by omega) (by omega) (by omega) (by omega) heq
    obtain ⟨ih1, ih2, ih3, ih4, ih5⟩ := ih (ci + 1) s.1 s.2.1 s.2.2 (by omega) hinj1
    have hslotother : ∀ t, t < r → proj.storageClass (ci + 1 + t)
        ≠ proj.storageClass ci → True := fun _ _ _ => trivial
    have htailnames : ∀ t, t < r →
        s.1.classNames (proj.storageClass (ci + 1 + t))
          = proj.classNames (proj.storageClass (ci + 1 + t)) := by
      intro t ht
      apply spcStep_classNames_other
      intro heq
      have := hinj (ci + 1 + t) ci (by omega) (by omega) (by omega) (by omega) heq
      omega
    refine ⟨?_, ?_, ?_, ?_, ?_⟩
    · rw [hstep, ih1, hsc]
    · rw [hstep, ih2, spcStep_numberClasses]
    · intro slot
      rw [hstep, ih3 slot, hsc]
      by_cases hslot : slot = proj.storageClass ci
      · have hne : ¬ ∃ t, t < r ∧ slot = proj.storageClass (ci + 1 + t) := by
          rintro ⟨t, ht, he⟩
          rw [hslot] at he
          have := hinj ci (ci + 1 + t) (by omega) (by omega) (by omega)
            (by omega) he
          omega
        have hyes : ∃ t, t < r + 1 ∧ slot = proj.storageClass (ci + t) := by
          exact ⟨0, by omega, by simpa using hslot⟩
        rw [if_neg hne, if_pos hyes, hslot, spcStep_classNames_self]
      · have hiff : (∃ t, t < r ∧ slot = proj.storageClass (ci + 1 + t))
            ↔ (∃ t, t < r + 1 ∧ slot = proj.storageClass (ci + t)) := by
          constructor
          · rintro ⟨t, ht, he⟩
            refine ⟨t + 1, by omega, ?_⟩
            have : ci + (t + 1) = ci + 1 + t := by omega
            rw [this]
            exact he
          · rintro ⟨t, ht, he⟩
            match t with
            | 0 =>
              exact absurd (by simpa using he) hslot
            | t + 1 =>
              refine ⟨t, by omega, ?_⟩
              have : ci + 1 + t = ci + (t + 1) := by omega
              rw [this]
              exact he
        have hsname : s.1.classNames slot = proj.classNames slot :=
          spcStep_classNames_other input proj ci tracked enh slot hslot
        rw [hsname]
        exact if_congr hiff rfl rfl
    · rw [hstep, ih4]
      have htr : s.2.1 = (if tracked ≠ kMixedStats
          ∧ tracked ≠ spcClassOutcome (proj.classNames (proj.storageClass ci))
              input then kMixedStats else tracked) := by
        rw [hs, spcStep_tracked]
        rw [if_neg (by omega : ¬ ci = 0)]
      have houtc : ∀ t, t < r →
          spcClassOutcome (s.1.classNames (proj.storageClass (ci + 1 + t))) input
            = spcClassOutcome
                (proj.classNames (proj.storageClass (ci + 1 + t))) input := by
        intro t ht
        rw [htailnames t ht]
      by_cases hmx : tracked = kMixedStats
      · have : s.2.1 = tracked := by
          rw [htr]
          simp [hmx]
        rw [this, if_pos hmx, hmx, if_pos rfl]
      · set v0 := spcClassOutcome (proj.classNames (proj.storageClass ci)) input
          with hv0
        by_cases hv : tracked = v0
        · have hst : s.2.1 = tracked := by
            rw [htr]
            simp [hv]
          rw [hst, if_neg hmx, if_neg hmx]
          have hiff : (∀ t, t < r → spcClassOutcome
                (s.1.classNames (s.1.storageClass (ci + 1 + t))) input = tracked)
              ↔ (∀ t, t < r + 1 → spcClassOutcome
                  (proj.classNames (proj.storageClass (ci + t))) input
                    = tracked) := by
            constructor
            · intro hall t ht
              match t with
              | 0 =>
                simpa using hv.symm
              | t + 1 =>
                have := hall t (by omega)
                rw [hsc, houtc t (by omega)] at this
                have harr : ci + (t + 1) = ci + 1 + t := by omega
                rw [harr]
                exact this
            · intro hall t ht
              rw [hsc, houtc t ht]
              have := hall (t + 1) (by omega)
              have harr : ci + (t + 1) = ci + 1 + t := by omega
              rw [harr] at this
              exact this
          by_cases hall : ∀ t, t < r + 1 → spcClassOutcome
              (proj.classNames (proj.storageClass (ci + t))) input = tracked
          · rw [if_pos (hiff.mpr hall), if_pos hall]
          · rw [if_neg (fun h => hall (hiff.mp h)), if_neg hall]
        · have hst : s.2.1 = kMixedStats := by
            rw [htr]
            simp [hmx, hv]
          rw [hst, if_pos rfl, if_neg hmx]
          have hnall : ¬ ∀ t, t < r + 1 → spcClassOutcome
              (proj.classNames (proj.storageClass (ci + t))) input = tracked := by
            intro hall
            have := hall 0 (by omega)
            simp only [Nat.add_zero] at this
            exact hv this.symm
          rw [if_neg hnall]
    · rw [hstep, ih5]
      have hse : s.2.2 = (enh
          || (proj.classNames (proj.storageClass ci)).modifiedStatsFlag) := by
        rw [hs, spcStep_enh]
      have htailflag : ∀ t, t < r →
          (s.1.classNames (s.1.storageClass (ci + 1 + t))).modifiedStatsFlag
            = (proj.classNames (proj.storageClass (ci + 1 + t))).modifiedStatsFlag := by
        intro t ht
        rw [hsc, hs, spcStep_modFlag]
      rw [hse]
      apply Bool.eq_iff_iff.mpr
      simp only [Bool.or_eq_true, decide_eq_true_eq]
      constructor
      · rintro ((he | hf) | hex)
        · exact Or.inl he
        · exact Or.inr ⟨0, by omega, by simpa using hf⟩
        · obtain ⟨t, ht, hfl⟩ := hex
          rw [htailflag t ht] at hfl
          refine Or.inr ⟨t + 1, by omega, ?_⟩
          have harr : ci + (t + 1) = ci + 1 + t := by omega
          rw [harr]
          exact hfl
      · rintro (he | ⟨t, ht, hfl⟩)
        · exact Or.inl (Or.inl he)
        · match t with
          | 0 =>
            exact Or.inl (Or.inr (by simpa using hfl))
          | t + 1 =>
            right
            refine ⟨t, by omega, ?_⟩
            rw [htailflag t (by omega)]
            have harr : ci + 1 + t = ci + (t + 1) := by omega
            rw [harr]
            exact hfl

theorem sccLoop_spec (proj : ProjectInfo) (input : Nat) (r : Nat) :
    ∀ ci, sccLoop proj input r ci
      = if ∀ t, t < r →
            (proj.classNames (proj.storageClass (ci + t))).covarianceStatsToUse
              = input then input
        else kMixedStats := by
  induction r with
  | zero =>
    intro ci
    rw [sccLoop, if_pos (by omega)]
  | succ r ih =>
    intro ci
    rw [sccLoop]
    by_cases h0 : input
        = (proj.classNames (proj.storageClass ci)).covarianceStatsToUse
    · rw [if_neg (by simpa using h0), ih (ci + 1)]
      have hiff : (∀ t, t < r →
            (proj.classNames
              (proj.storageClass (ci + 1 + t))).covarianceStatsToUse = input)
          ↔ (∀ t, t < r + 1 →
            (proj.classNames
              (proj.storageClass (ci + t))).covarianceStatsToUse = input) := by
        constructor
        · intro hall t ht
          match t with
          | 0 => simpa using h0.symm
          | t + 1 =>
            have := hall t (by omega)
            have harr : ci + (t + 1) = ci + 1 + t := by omega
            rw [harr]
            exact this
        · intro hall t ht
          have := hall (t + 1) (by omega)
          have harr : ci + (t + 1) = ci + 1 + t := by omega
          rw [harr] at this
          exact this
      exact if_congr hiff rfl rfl
    · rw [if_pos (by simpa using h0)]
      have hnall : ¬ ∀ t, t < r + 1 →
          (proj.classNames
            (proj.storageClass (ci + t))).covarianceStatsToUse = input := by
        intro hall
        have := hall 0 (by omega)
        simp only [Nat.add_zero] at this
        exact h0 this.symm
      rw [if_neg hnall]

/-- C8 counterexample: a one-class project whose class uses leave-one-out
statistics without enhanced statistics available; requesting
`SetProjectCovarianceStatsToUse kEnhancedStats` leaves the class at
`kLeaveOneOutStats` but forces the project-level setting to
`kOriginalStats`, so the project setting does not equal the common class
setting even though all (one) classes agree — refuting the claimed
project/class agreement. -/
theorem C8_counterexample :
    ((SetProjectCovarianceStatsToUse c8exProj kEnhancedStats).classNames
        ((SetProjectCovarianceStatsToUse c8exProj kEnhancedStats).storageClass 0)
      ).covarianceStatsToUse = kLeaveOneOutStats
    ∧ (SetProjectCovarianceStatsToUse c8exProj
        kEnhancedStats).covarianceStatsToUse = kOriginalStats
    ∧ kOriginalStats ≠ kLeaveOneOutStats := by
  refine ⟨?_, ?_, by decide⟩
  · rfl
  · rfl

/-- C8 (amended): `kMixedStats` is never stored as a per-class estimator
selection: after `SetProjectCovarianceStatsToUse` no class's
`covarianceStatsToUse` equals `kMixedStats`, each class holds the
per-class outcome `spcClassOutcome`, and the project-level setting equals
the common class outcome when all classes agree and `kMixedStats` when they
disagree — except that when the input is `kEnhancedStats` and no class has
modified statistics the project-level setting is forced to
`kOriginalStats`.  `SetClassCovarianceStatsToUse` rejects `kMixedStats`
(leaving the state unchanged) and, for an in-range input, sets the
project-level value to the input when all classes then agree with it and to
`kMixedStats` otherwise. -/
theorem C8_covarianceStatsSetters (proj : ProjectInfo) (input : Nat)
    (hn : 0 < proj.numberStatisticsClasses)
    (hinj : ∀ a b, a < proj.numberStatisticsClasses →
        b < proj.numberStatisticsClasses →
        proj.storageClass a = proj.storageClass b → a = b) :
    (∀ ci, ci < proj.numberStatisticsClasses →
      ((SetProjectCovarianceStatsToUse proj input).classNames
          (proj.storageClass ci)).covarianceStatsToUse ≠ kMixedStats)
    ∧ (∀ ci, ci < proj.numberStatisticsClasses →
        ((SetProjectCovarianceStatsToUse proj input).classNames
            (proj.storageClass ci)).covarianceStatsToUse
          = spcClassOutcome (proj.classNames (proj.storageClass ci)) input)
    ∧ (¬ (input = kEnhancedStats ∧ ∀ ci, ci < proj.numberStatisticsClasses →
            (proj.classNames (proj.storageClass ci)).modifiedStatsFlag
              = false) →
        (SetProjectCovarianceStatsToUse proj input).covarianceStatsToUse
          = if ∀ ci, ci < proj.numberStatisticsClasses →
                spcClassOutcome (proj.classNames (proj.storageClass ci)) input
                  = spcClassOutcome (proj.classNames (proj.storageClass 0)) input
              then spcClassOutcome (proj.classNames (proj.storageClass 0)) input
            else kMixedStats)
    ∧ SetClassCovarianceStatsToUse proj kMixedStats = proj
    ∧ (0 < input → input ≤ kEnhancedStats →
        (SetClassCovarianceStatsToUse proj input).covarianceStatsToUse
          = if ∀ ci, ci < proj.numberStatisticsClasses →
                (Function.update proj.classNames
                    (proj.storageClass proj.currentClass)
                    { proj.classNames (proj.storageClass proj.currentClass) with
                        covarianceStatsToUse := input }
                  (proj.storageClass ci)).covarianceStatsToUse = input
              then input
            else kMixedStats) := by
  obtain ⟨m, hm⟩ := Nat.exists_eq_succ_of_ne_zero (by omega :
    proj.numberStatisticsClasses ≠ 0)
  set proj0 : ProjectInfo := { proj with covarianceStatsToUse := input }
    with hproj0
  have hp0names : proj0.classNames = proj.classNames := rfl
  have hp0sc : proj0.storageClass = proj.storageClass := rfl
  set s := spcStep input proj0 0 kOriginalStats false with hs
  have hsc : s.1.storageClass = proj.storageClass := by
    rw [hs, spcStep_storageClass]
  have hs21 : s.2.1 = spcClassOutcome (proj.classNames (proj.storageClass 0))
      input := by
    rw [hs, spcStep_tracked, if_pos rfl]
  have hs22 : s.2.2 = (proj.classNames (proj.storageClass 0)).modifiedStatsFlag := by
    rw [hs, spcStep_enh]
    simp
  have hinj1 : ∀ a b, 1 ≤ a → a < 1 + m → 1 ≤ b → b < 1 + m →
      s.1.storageClass a = s.1.storageClass b → a = b := by
    intro a b ha1 ha2 hb1 hb2 heq
    rw [hsc] at heq
    exact hinj a b (by omega) (by omega) heq
  obtain ⟨ih1, ih2, ih3, ih4, ih5⟩ := spcLoop_spec input m 1 s.1 s.2.1 s.2.2
    (by omega) hinj1
  have hloop : spcLoop input proj0.numberStatisticsClasses 0 proj0
      kOriginalStats false = spcLoop input m 1 s.1 s.2.1 s.2.2 := by
    have hnum : proj0.numberStatisticsClasses = m + 1 := hm
    rw [hnum, spcLoop]
  have htailnames : ∀ t, t < m →
      s.1.classNames (proj.storageClass (1 + t))
        = proj.classNames (proj.storageClass (1 + t)) := by
    intro t ht
    rw [hs]
    apply spcStep_classNames_other
    rw [hp0sc]
    intro heq
    have := hinj (1 + t) 0 (by omega) (by omega) heq
    omega
  have hslot0 : s.1.classNames (proj.storageClass 0)
      = spcClassRecord (proj.classNames (proj.storageClass 0)) input := by
    rw [hs]
    have := spcStep_classNames_self input proj0 0 kOriginalStats false
    rw [hp0sc, hp0names] at this
    exact this
  have hresnames : ∀ ci, ci < proj.numberStatisticsClasses →
      (spcLoop input proj0.numberStatisticsClasses 0 proj0 kOriginalStats
          false).1.classNames (proj.storageClass ci)
        = spcClassRecord (proj.classNames (proj.storageClass ci)) input := by
    intro ci hci
    rw [hloop, ih3, hsc]
    match ci with
    | 0 =>
      have hne : ¬ ∃ t, t < m ∧ proj.storageClass 0
          = proj.storageClass (1 + t) := by
        rintro ⟨t, ht, he⟩
        have := hinj 0 (1 + t) (by omega) (by omega) he
        omega
      rw [if_neg hne, hslot0]
    | ci + 1 =>
      have hyes : ∃ t, t < m ∧ proj.storageClass (ci + 1)
          = proj.storageClass (1 + t) := by
        refine ⟨ci, by omega, ?_⟩
        have : 1 + ci = ci + 1 := by omega
        rw [this]
      rw [if_pos hyes]
      have htn := htailnames ci (by omega)
      have harr : 1 + ci = ci + 1 := by omega
      rw [harr] at htn
      rw [htn]
  have hrestracked : (spcLoop input proj0.numberStatisticsClasses 0 proj0
        kOriginalStats false).2.1
      = (if ∀ ci, ci < proj.numberStatisticsClasses →
            spcClassOutcome (proj.classNames (proj.storageClass ci)) input
              = spcClassOutcome (proj.classNames (proj.storageClass 0)) input
          then spcClassOutcome (proj.classNames (proj.storageClass 0)) input
        else kMixedStats) := by
    rw [hloop, ih4, hs21]
    rw [if_neg (spcClassOutcome_ne_mixed _ _)]
    have hiff : (∀ t, t < m → spcClassOutcome
          (s.1.classNames (s.1.storageClass (1 + t))) input
            = spcClassOutcome (proj.classNames (proj.storageClass 0)) input)
        ↔ (∀ ci, ci < proj.numberStatisticsClasses →
            spcClassOutcome (proj.classNames (proj.storageClass ci)) input
              = spcClassOutcome (proj.classNames (proj.storageClass 0)) input) := by
      constructor
      · intro hall ci hci
        match ci with
        | 0 => rfl
        | ci + 1 =>
          have := hall ci (by omega)
          rw [hsc, htailnames ci (by omega)] at this
          have harr : 1 + ci = ci + 1 := by omega
          rw [harr] at this
          exact this
      · intro hall t ht
        rw [hsc, htailnames t ht]
        have harr : 1 + t = t + 1 := by omega
        rw [harr]
        exact hall (t + 1) (by omega)
    exact if_congr hiff rfl rfl
  have hresenh : ((spcLoop input proj0.numberStatisticsClasses 0 proj0
        kOriginalStats false).2.2 = true)
      ↔ ∃ ci, ci < proj.numberStatisticsClasses ∧
          (proj.classNames (proj.storageClass ci)).modifiedStatsFlag = true := by
    rw [hloop, ih5, hs22]
    simp only [Bool.or_eq_true, decide_eq_true_eq]
    constructor
    · rintro (h0 | ⟨t, ht, hfl⟩)
      · exact ⟨0, by omega, h0⟩
      · rw [hsc, hs, spcStep_modFlag, hp0names] at hfl
        exact ⟨1 + t, by omega, hfl⟩
    · rintro ⟨ci, hci, hfl⟩
      match ci with
      | 0 => exact Or.inl hfl
      | ci + 1 =>
        right
        refine ⟨ci, by omega, ?_⟩
        rw [hsc, hs, spcStep_modFlag, hp0names]
        have harr : 1 + ci = ci + 1 := by omega
        rw [harr]
        exact hfl
  have hfinal : SetProjectCovarianceStatsToUse proj input
      = (if input = kEnhancedStats
          ∧ (spcLoop input proj0.numberStatisticsClasses 0 proj0 kOriginalStats
              false).2.2 = false then
          { (spcLoop input proj0.numberStatisticsClasses 0 proj0 kOriginalStats
              false).1 with
            covarianceStatsToUse := kOriginalStats
            enhancedStatsExistFlag :=
              (spcLoop input proj0.numberStatisticsClasses 0 proj0
                kOriginalStats false).2.2 }
        else
          { (spcLoop input proj0.numberStatisticsClasses 0 proj0 kOriginalStats
              false).1 with
            covarianceStatsToUse :=
              (spcLoop input proj0.numberStatisticsClasses 0 proj0
                kOriginalStats false).2.1
            enhancedStatsExistFlag :=
              (spcLoop input proj0.numberStatisticsClasses 0 proj0
                kOriginalStats false).2.2 }) := by
    rw [SetProjectCovarianceStatsToUse]
  refine ⟨?_, ?_, ?_, ?_, ?_⟩
  · intro ci hci
    have hname : ((SetProjectCovarianceStatsToUse proj input).classNames
        (proj.storageClass ci))
          = spcClassRecord (proj.classNames (proj.storageClass ci)) input := by
      rw [hfinal]
      split_ifs <;> exact hresnames ci hci
    rw [hname, ← spcClassOutcome_eq_record]
    exact spcClassOutcome_ne_mixed _ _
  · intro ci hci
    have hname : ((SetProjectCovarianceStatsToUse proj input).classNames
        (proj.storageClass ci))
          = spcClassRecord (proj.classNames (proj.storageClass ci)) input := by
      rw [hfinal]
      split_ifs <;> exact hresnames ci hci
    rw [hname, ← spcClassOutcome_eq_record]
  · intro hexcl
    have hcond : ¬ (input = kEnhancedStats
        ∧ (spcLoop input proj0.numberStatisticsClasses 0 proj0 kOriginalStats
            false).2.2 = false) := by
      rintro ⟨hin, hflag⟩
      apply hexcl
      refine ⟨hin, ?_⟩
      intro ci hci
      rcases Bool.eq_false_or_eq_true
          (proj.classNames (proj.storageClass ci)).modifiedStatsFlag with hT | hF
      · have := hresenh.mpr ⟨ci, hci, hT⟩
        rw [hflag] at this
        exact absurd this Bool.false_ne_true
      · exact hF
    rw [hfinal, if_neg hcond]
    exact hrestracked
  · rw [SetClassCovarianceStatsToUse,
      if_pos (Or.inr (by decide : kEnhancedStats < kMixedStats))]
  · intro hpos hle
    have hguard : ¬ (input = 0 ∨ kEnhancedStats < input) := by
      push_neg
      exact ⟨by omega, by omega⟩
    have hcv : (SetClassCovarianceStatsToUse proj input).covarianceStatsToUse
        = sccLoop
            { proj with
                classNames := Function.update proj.classNames
                  (proj.storageClass proj.currentClass)
                  { proj.classNames (proj.storageClass proj.currentClass) with
                      covarianceStatsToUse := input }
                covarianceStatsToUse := input } input
            proj.numberStatisticsClasses 0 := by
      simp only [SetClassCovarianceStatsToUse, if_neg hguard]
      split_ifs <;> rfl
    rw [hcv, sccLoop_spec]
    apply if_congr ?_ rfl rfl
    constructor
    · intro hall ci hci
      have := hall ci hci
      rwa [Nat.zero_add] at this
    · intro hall t ht
      have := hall t ht
      rw [Nat.zero_add]
      exact this

/-- Witness for C8: the setter specification applied to a concrete one-class
project; in particular the per-class setter rejects `kMixedStats`. -/
theorem C8_covarianceStatsSetters_witness :
    (0 < c8exProj.numberStatisticsClasses
      ∧ (∀ a b : Nat, a < c8exProj.numberStatisticsClasses →
          b < c8exProj.numberStatisticsClasses →
          c8exProj.storageClass a = c8exProj.storageClass b → a = b))
    ∧ SetClassCovarianceStatsToUse c8exProj kMixedStats = c8exProj :=
  ⟨⟨by decide, by
      intro a b ha hb _
      have ha1 : a < 1 := ha
      have hb1 : b < 1 := hb
      omega⟩,
    (C8_covarianceStatsSetters c8exProj kOriginalStats (by decide)
      (by
        intro a b ha hb _
        have ha1 : a < 1 := ha
        have hb1 : b < 1 := hb
        omega)).2.2.2.1⟩

theorem gccLoop_cancel (weightOf : Nat → ℚ) (classAt statsToUseAt : Nat → Nat)
    (classCov : Nat → Nat → Nat → ℚ) (cancelAfter : Nat → Bool)
    (totalProb : ℚ) (NI : Nat) (r : Nat) :
    ∀ (ci : Nat) (cov : Nat → ℚ) (count : Nat),
      (∃ t, t < r ∧ 0 < GetClassWeightValue weightOf (classAt (ci + t)) totalProb
        ∧ cancelAfter (ci + t) = true) →
      (gccLoop weightOf classAt statsToUseAt classCov cancelAfter totalProb NI
        r ci cov count).2.2 = false := by
  induction r with
  | zero =>
    rintro ci cov count ⟨t, ht, _⟩
    omega
  | succ r ih =>
    rintro ci cov count ⟨t, ht, hw, hc⟩
    by_cases h0 : 0 < GetClassWeightValue weightOf (classAt ci) totalProb
    · by_cases hcan : cancelAfter ci = true
      · simp [gccLoop, h0, hcan]
      · match t with
        | 0 => exact absurd (by simpa using hc) hcan
        | t + 1 =>
          have harr : ci + (t + 1) = ci + 1 + t := by omega
          rw [harr] at hw hc
          have := ih (ci + 1) (fun idx =>
            if idx < NI then cov idx + GetClassWeightValue weightOf (classAt ci)
              totalProb * classCov (classAt ci) (statsToUseAt (classAt ci)) idx
            else cov idx) (count + 1) ⟨t, by omega, hw, hc⟩
          simpa [gccLoop, h0, hcan] using this
    · match t with
      | 0 => exact absurd (by simpa using hw) h0
      | t + 1 =>
        have harr : ci + (t + 1) = ci + 1 + t := by omega
        rw [harr] at hw hc
        have := ih (ci + 1) cov count ⟨t, by omega, hw, hc⟩
        simpa [gccLoop, h0] using this

theorem gccLoop_spec (weightOf : Nat → ℚ) (classAt statsToUseAt : Nat → Nat)
    (classCov : Nat → Nat → Nat → ℚ) (cancelAfter : Nat → Bool)
    (totalProb : ℚ) (NI : Nat) (r : Nat) :
    ∀ (ci : Nat) (cov : Nat → ℚ) (count : Nat),
      (∀ t, t < r → cancelAfter (ci + t) = false) →
      (gccLoop weightOf classAt statsToUseAt classCov cancelAfter totalProb NI
          r ci cov count).2.2 = true
      ∧ (∀ idx, (gccLoop weightOf classAt statsToUseAt classCov cancelAfter
            totalProb NI r ci cov count).1 idx
          = if idx < NI then cov idx + ∑ t in Finset.range r,
              (if 0 < GetClassWeightValue weightOf (classAt (ci + t)) totalProb
                then GetClassWeightValue weightOf (classAt (ci + t)) totalProb
                  * classCov (classAt (ci + t))
                      (statsToUseAt (classAt (ci + t))) idx
                else 0)
            else cov idx)
      ∧ (gccLoop weightOf classAt statsToUseAt classCov cancelAfter totalProb
            NI r ci cov count).2.1
          = count + ∑ t in Finset.range r,
              (if 0 < GetClassWeightValue weightOf (classAt (ci + t)) totalProb
                then 1 else 0) := by
  induction r with
  | zero =>
    intro ci cov count _
    refine ⟨rfl, ?_, by simp [gccLoop]⟩
    intro idx
    by_cases hidx : idx < NI
    · simp [gccLoop, hidx]
    · simp [gccLoop, hidx]
  | succ r ih =>
    intro ci cov count hnc
    have hcan : cancelAfter ci = false := by simpa using hnc 0 (by omega)
    have hshift : ∀ t, t < r → cancelAfter (ci + 1 + t) = false := by
      intro t ht
      have := hnc (t + 1) (by omega)
      have harr : ci + (t + 1) = ci + 1 + t := by omega
      rwa [harr] at this
    by_cases h0 : 0 < GetClassWeightValue weightOf (classAt ci) totalProb
    · set cov1 : Nat → ℚ := fun idx =>
        if idx < NI then cov idx + GetClassWeightValue weightOf (classAt ci)
          totalProb * classCov (classAt ci) (statsToUseAt (classAt ci)) idx
        else cov idx with hcov1
      have hstep : gccLoop weightOf classAt statsToUseAt classCov cancelAfter
          totalProb NI (r + 1) ci cov count
            = gccLoop weightOf classAt statsToUseAt classCov cancelAfter
              totalProb NI r (ci + 1) cov1 (count + 1) := by
        simp [gccLoop, h0, hcan, hcov1]
      obtain ⟨ihf, ihm, ihc⟩ := ih (ci + 1) cov1 (count + 1) hshift
      refine ⟨by rw [hstep]; exact ihf, ?_, ?_⟩
      · intro idx
        rw [hstep, ihm idx]
        by_cases hidx : idx < NI
        · rw [if_pos hidx, if_pos hidx]
          rw [Finset.sum_range_succ']
          have hc1 : cov1 idx = cov idx + GetClassWeightValue weightOf
              (classAt ci) totalProb * classCov (classAt ci)
                (statsToUseAt (classAt ci)) idx := by
            rw [hcov1]
            exact if_pos hidx
          rw [hc1]
          have harr : ∀ t, ci + 1 + t = ci + (t + 1) := fun t => by omega
          simp only [harr, Nat.add_zero, if_pos h0]
          ring
        · rw [if_neg hidx, if_neg hidx, hcov1]
          exact if_neg hidx
      · rw [hstep, ihc, Finset.sum_range_succ']
        have harr : ∀ t, ci + 1 + t = ci + (t + 1) := fun t => by omega
        simp only [harr, Nat.add_zero, if_pos h0]
        omega
    · have hstep : gccLoop weightOf classAt statsToUseAt classCov cancelAfter
          totalProb NI (r + 1) ci cov count
            = gccLoop weightOf classAt statsToUseAt classCov cancelAfter
              totalProb NI r (ci + 1) cov count := by
        simp [gccLoop, h0]
      obtain ⟨ihf, ihm, ihc⟩ := ih (ci + 1) cov count hshift
      refine ⟨by rw [hstep]; exact ihf, ?_, ?_⟩
      · intro idx
        rw [hstep, ihm idx]
        by_cases hidx : idx < NI
        · rw [if_pos hidx, if_pos hidx]
          rw [Finset.sum_range_succ']
          have harr : ∀ t, ci + 1 + t = ci + (t + 1) := fun t => by omega
          simp only [harr, Nat.add_zero, if_neg h0]
          ring
        · rw [if_neg hidx, if_neg hidx]
      · rw [hstep, ihc, Finset.sum_range_succ']
        have harr : ∀ t, ci + 1 + t = ci + (t + 1) := fun t => by omega
        simp only [harr, Nat.add_zero, if_neg h0]

/-- C2: if the global cancel flag is observed true at a check inside
`GetCommonCovariance`'s class loop (checks follow each positive-weight
class), the function returns false; whenever it returns false the project
state — in particular `numberCommonCovarianceClasses` — retains its
pre-call value; the state is also untouched when the project-common
covariance flag is clear; and in every case the project either is unchanged
or, on a fully successful flagged pass, changes only its
`numberCommonCovarianceClasses` cache. -/
theorem C2_getCommonCovariance_cancellation (proj : ProjectInfo)
    (covInit : Nat → ℚ) (classPtr : Option (Nat → Nat)) (weightOf : Nat → ℚ)
    (classCov : Nat → Nat → Nat → ℚ) (cancelAfter : Nat → Bool)
    (numberClasses numberFeatureChannels : Nat)
    (squareOutputMatrixFlag : Bool) (inputCovarianceStatsToUse : Nat)
    (projectCommonCovarianceFlag : Bool) :
    ((∃ i, i < numberClasses
        ∧ 0 < GetClassWeightValue weightOf (gccClassAt classPtr i)
            (GetTotalProbability weightOf (gccClassAt classPtr) numberClasses)
        ∧ cancelAfter i = true) →
      (GetCommonCovariance proj covInit classPtr weightOf classCov cancelAfter
        numberClasses numberFeatureChannels squareOutputMatrixFlag
        inputCovarianceStatsToUse projectCommonCovarianceFlag).2.1 = false)
    ∧ ((GetCommonCovariance proj covInit classPtr weightOf classCov cancelAfter
        numberClasses numberFeatureChannels squareOutputMatrixFlag
        inputCovarianceStatsToUse projectCommonCovarianceFlag).2.1 = false →
      (GetCommonCovariance proj covInit classPtr weightOf classCov cancelAfter
        numberClasses numberFeatureChannels squareOutputMatrixFlag
        inputCovarianceStatsToUse projectCommonCovarianceFlag).2.2 = proj)
    ∧ (projectCommonCovarianceFlag = false →
      (GetCommonCovariance proj covInit classPtr weightOf classCov cancelAfter
        numberClasses numberFeatureChannels squareOutputMatrixFlag
        inputCovarianceStatsToUse projectCommonCovarianceFlag).2.2 = proj)
    ∧ ((GetCommonCovariance proj covInit classPtr weightOf classCov cancelAfter
          numberClasses numberFeatureChannels squareOutputMatrixFlag
          inputCovarianceStatsToUse projectCommonCovarianceFlag).2.2 = proj
      ∨ ((GetCommonCovariance proj covInit classPtr weightOf classCov
            cancelAfter numberClasses numberFeatureChannels
            squareOutputMatrixFlag inputCovarianceStatsToUse
            projectCommonCovarianceFlag).2.1 = true
        ∧ projectCommonCovarianceFlag = true
        ∧ ∃ c, (GetCommonCovariance proj covInit classPtr weightOf classCov
            cancelAfter numberClasses numberFeatureChannels
            squareOutputMatrixFlag inputCovarianceStatsToUse
            projectCommonCovarianceFlag).2.2
              = { proj with numberCommonCovarianceClasses := c })) := by
  simp only [GetCommonCovariance]
  set res := gccLoop weightOf (gccClassAt classPtr)
    (gccStatsToUse proj inputCovarianceStatsToUse) classCov cancelAfter
    (GetTotalProbability weightOf (gccClassAt classPtr) numberClasses)
    (gccNumberIndices squareOutputMatrixFlag numberFeatureChannels)
    numberClasses 0
    (fun idx =>
      if idx < gccNumberIndices squareOutputMatrixFlag numberFeatureChannels
      then (0 : ℚ) else covInit idx) 0 with hres
  refine ⟨?_, ?_, ?_, ?_⟩
  · rintro ⟨i, hi, hw, hc⟩
    show res.2.2 = false
    rw [hres]
    exact gccLoop_cancel weightOf (gccClassAt classPtr)
      (gccStatsToUse proj inputCovarianceStatsToUse) classCov cancelAfter
      (GetTotalProbability weightOf (gccClassAt classPtr) numberClasses)
      (gccNumberIndices squareOutputMatrixFlag numberFeatureChannels)
      numberClasses 0 _ 0 ⟨i, hi, by simpa using hw, by simpa using hc⟩
  · intro h
    have hflag : res.2.2 = false := h
    simp [hflag]
  · intro h
    simp [h]
  · by_cases hflag : res.2.2 = true
    · by_cases hp : projectCommonCovarianceFlag = true
      · right
        exact ⟨hflag, hp, res.2.1, by simp [hflag, hp]⟩
      · left
        have hp2 : projectCommonCovarianceFlag = false := by
          rcases Bool.eq_false_or_eq_true projectCommonCovarianceFlag with h | h
          · exact absurd h hp
          · exact h
        simp [hp2]
    · left
      have hf : res.2.2 = false := by
        rcases Bool.eq_false_or_eq_true res.2.2 with h | h
        · exact absurd h hflag
        · exact h
      simp [hf]

/-- Witness for C2: the cancellation contract at a concrete three-class run
whose cancel flag is observed true at the check after the second class; the
call returns false and the project state is unchanged. -/
theorem C2_getCommonCovariance_cancellation_witness :
    (∃ i, i < 3 ∧ 0 < GetClassWeightValue c2wWeight (gccClassAt none i)
        (GetTotalProbability c2wWeight (gccClassAt none) 3)
      ∧ c2wCancel i = true)
    ∧ (GetCommonCovariance c1exProj (fun _ => 0) none c2wWeight c2wCov
        c2wCancel 3 2 false kOriginalStats true).2.1 = false
    ∧ (GetCommonCovariance c1exProj (fun _ => 0) none c2wWeight c2wCov
        c2wCancel 3 2 false kOriginalStats true).2.2 = c1exProj := by
  have h := C2_getCommonCovariance_cancellation c1exProj (fun _ => 0) none
    c2wWeight c2wCov c2wCancel 3 2 false kOriginalStats true
  have hex : ∃ i, i < 3 ∧ 0 < GetClassWeightValue c2wWeight (gccClassAt none i)
      (GetTotalProbability c2wWeight (gccClassAt none) 3)
      ∧ c2wCancel i = true := by
    refine ⟨1, by omega, ?_, rfl⟩
    norm_num [GetClassWeightValue, GetTotalProbability, gccClassAt, c2wWeight,
      Finset.sum_range_succ]
  exact ⟨hex, h.1 hex, h.2.1 (h.1 hex)⟩

/-- C3: on a run with no cancellation, `GetCommonCovariance` returns true,
the produced packed matrix is the weighted sum over the listed classes of
the per-class covariances — each weight being the class a-priori weight
normalized by the total probability, with classes of non-positive weight
contributing nothing — and, when the project-common-covariance flag is set,
`numberCommonCovarianceClasses` becomes exactly the number of
positive-weight classes (skipped classes are not counted). -/
theorem C3_getCommonCovariance_pooled (proj : ProjectInfo)
    (covInit : Nat → ℚ) (classPtr : Option (Nat → Nat)) (weightOf : Nat → ℚ)
    (classCov : Nat → Nat → Nat → ℚ) (cancelAfter : Nat → Bool)
    (numberClasses numberFeatureChannels : Nat)
    (squareOutputMatrixFlag : Bool) (inputCovarianceStatsToUse : Nat)
    (projectCommonCovarianceFlag : Bool)
    (hnc : ∀ i, i < numberClasses → cancelAfter i = false) :
    (GetCommonCovariance proj covInit classPtr weightOf classCov cancelAfter
        numberClasses numberFeatureChannels squareOutputMatrixFlag
        inputCovarianceStatsToUse projectCommonCovarianceFlag).2.1 = true
    ∧ (∀ idx,
        idx < gccNumberIndices squareOutputMatrixFlag numberFeatureChannels →
        (GetCommonCovariance proj covInit classPtr weightOf classCov
            cancelAfter numberClasses numberFeatureChannels
            squareOutputMatrixFlag inputCovarianceStatsToUse
            projectCommonCovarianceFlag).1 idx
          = ∑ i in Finset.range numberClasses,
              (if 0 < GetClassWeightValue weightOf (gccClassAt classPtr i)
                  (GetTotalProbability weightOf (gccClassAt classPtr)
                    numberClasses)
                then GetClassWeightValue weightOf (gccClassAt classPtr i)
                    (GetTotalProbability weightOf (gccClassAt classPtr)
                      numberClasses)
                  * classCov (gccClassAt classPtr i)
                      (gccStatsToUse proj inputCovarianceStatsToUse
                        (gccClassAt classPtr i)) idx
                else 0))
    ∧ (GetCommonCovariance proj covInit classPtr weightOf classCov cancelAfter
          numberClasses numberFeatureChannels squareOutputMatrixFlag
          inputCovarianceStatsToUse
          projectCommonCovarianceFlag).2.2.numberCommonCovarianceClasses
        = (if projectCommonCovarianceFlag then
            ((Finset.range numberClasses).filter (fun i =>
              0 < GetClassWeightValue weightOf (gccClassAt classPtr i)
                (GetTotalProbability weightOf (gccClassAt classPtr)
                  numberClasses))).card
          else proj.numberCommonCovarianceClasses) := by
  simp only [GetCommonCovariance]
  set res := gccLoop weightOf (gccClassAt classPtr)
    (gccStatsToUse proj inputCovarianceStatsToUse) classCov cancelAfter
    (GetTotalProbability weightOf (gccClassAt classPtr) numberClasses)
    (gccNumberIndices squareOutputMatrixFlag numberFeatureChannels)
    numberClasses 0
    (fun idx =>
      if idx < gccNumberIndices squareOutputMatrixFlag numberFeatureChannels
      then (0 : ℚ) else covInit idx) 0 with hres
  obtain ⟨hf, hm, hc⟩ := gccLoop_spec weightOf (gccClassAt classPtr)
    (gccStatsToUse proj inputCovarianceStatsToUse) classCov cancelAfter
    (GetTotalProbability weightOf (gccClassAt classPtr) numberClasses)
    (gccNumberIndices squareOutputMatrixFlag numberFeatureChannels)
    numberClasses 0
    (fun idx =>
      if idx < gccNumberIndices squareOutputMatrixFlag numberFeatureChannels
      then (0 : ℚ) else covInit idx) 0
    (by intro t ht; simpa using hnc t ht)
  rw [← hres] at hf hm hc
  refine ⟨hf, ?_, ?_⟩
  · intro idx hidx
    show res.1 idx = _
    rw [hm idx, if_pos hidx]
    simp only [Nat.zero_add, if_pos hidx, zero_add]
  · show (if res.2.2 && projectCommonCovarianceFlag then
        { proj with numberCommonCovarianceClasses := res.2.1 }
      else proj).numberCommonCovarianceClasses = _
    rw [hf]
    by_cases hp : projectCommonCovarianceFlag = true
    · rw [hp]
      simp only [Bool.and_self, if_pos rfl, ite_true]
      rw [hc, Finset.card_filter]
      simp only [Nat.zero_add]
    · have hp2 : projectCommonCovarianceFlag = false := by
        rcases Bool.eq_false_or_eq_true projectCommonCovarianceFlag with h | h
        · exact absurd h hp
        · exact h
      rw [hp2]
      simp

/-- Witness for C3: the pooled-covariance specification on a concrete
three-class run with no cancellation (class 0 has weight 0 and is
skipped). -/
theorem C3_getCommonCovariance_pooled_witness :
    (∀ i, i < 3 → c3wCancel i = false)
    ∧ (GetCommonCovariance c1exProj (fun _ => 0) none c3wWeight c2wCov
        c3wCancel 3 2 false kOriginalStats true).2.1 = true :=
  ⟨by decide,
    (C3_getCommonCovariance_pooled c1exProj (fun _ => 0) none c3wWeight c2wCov
      c3wCancel 3 2 false kOriginalStats true (by decide)).1⟩

/-- **C4**: when enhanced statistics are requested for a class, the accessors
use the stored modified statistics projected onto the requested channel
subset if the class's `modifiedStatsFlag` is set, and otherwise fall back to
the original statistics, never signalling an error: (a)
`GetClassChannelStatistics` on a stored-Enhanced class with modified
statistics succeeds with the projected modified channel statistics; (b)
without modified statistics it behaves exactly as if the class's stored
estimator were Original; (c) `GetClassCovarianceMatrix` with the Enhanced
estimator requested and modified statistics present returns the
channel-statistics result together with the modified class covariance
projected onto the requested channels (mirrored for a square output and
zero-variance conditioned when the project asks for it) and an unchanged
project; (d) with the Enhanced estimator requested but no modified
statistics it coincides with the Original-estimator call. -/
theorem C4_enhanced_fallback (proj : ProjectInfo)
    (fuel numberOutputChannels : Nat) (chanBuf : Nat → ChannelStatistics)
    (covBuf : Nat → ℚ) (channelList : Option (Nat → Nat)) (classNumber : Nat)
    (looUpdate : ProjectInfo → ProjectInfo) (squareOutputMatrixFlag : Bool)
    (outputStatisticsCode : Nat) :
    ((proj.classNames (proj.storageClass classNumber)).covarianceStatsToUse
        = kEnhancedStats →
     (proj.classNames (proj.storageClass classNumber)).modifiedStatsFlag = true →
     numberOutputChannels ≠ 0 →
     0 < (proj.classNames (proj.storageClass classNumber)).numberOfTrainFields →
     GetClassChannelStatistics proj fuel numberOutputChannels chanBuf
         channelList classNumber
       = some (true,
           ReduceChanStatsVector
             (fun ch => proj.modifiedClassChanStats
               (proj.storageClass classNumber * proj.numberStatisticsChannels + ch))
             chanBuf numberOutputChannels channelList)) ∧
    ((proj.classNames (proj.storageClass classNumber)).modifiedStatsFlag = false →
     GetClassChannelStatistics proj fuel numberOutputChannels chanBuf
         channelList classNumber
       = GetClassChannelStatistics
           { proj with
               classNames := Function.update proj.classNames
                 (proj.storageClass classNumber)
                 { proj.classNames (proj.storageClass classNumber) with
                     covarianceStatsToUse := kOriginalStats } }
           fuel numberOutputChannels chanBuf channelList classNumber) ∧
    (∀ b : Bool, ∀ chan1 : Nat → ChannelStatistics, ∀ cov2 : Nat → ℚ,
     (proj.classNames (proj.storageClass classNumber)).modifiedStatsFlag = true →
     numberOutputChannels ≠ 0 →
     outputStatisticsCode ≤ proj.statisticsCode →
     GetClassChannelStatistics proj fuel numberOutputChannels chanBuf
         channelList classNumber = some (b, chan1) →
     cov2 = (if squareOutputMatrixFlag then
               CopyLowerToUpperSquareMatrix numberOutputChannels
                 (ReduceInputMatrix numberOutputChannels covBuf
                   proj.numberStatisticsChannels channelList
                   (fun i => proj.modifiedClassCov
                     (proj.storageClass classNumber * proj.numberCovarianceEntries + i))
                   squareOutputMatrixFlag)
             else
               ReduceInputMatrix numberOutputChannels covBuf
                 proj.numberStatisticsChannels channelList
                 (fun i => proj.modifiedClassCov
                   (proj.storageClass classNumber * proj.numberCovarianceEntries + i))
                 squareOutputMatrixFlag) →
     GetClassCovarianceMatrix proj fuel looUpdate numberOutputChannels chanBuf
         covBuf channelList classNumber squareOutputMatrixFlag
         outputStatisticsCode kEnhancedStats
       = some (chan1,
           (if b = true ∧ outputStatisticsCode = kMeanCovariance ∧
               proj.setZeroVarianceFlag = true then
             (ResetZeroVariances proj.zeroVarianceFactor cov2
               squareOutputMatrixFlag outputStatisticsCode
               numberOutputChannels).1
            else cov2),
           proj)) ∧
    ((proj.classNames (proj.storageClass classNumber)).modifiedStatsFlag = false →
     GetClassCovarianceMatrix proj fuel looUpdate numberOutputChannels chanBuf
         covBuf channelList classNumber squareOutputMatrixFlag
         outputStatisticsCode kEnhancedStats
       = GetClassCovarianceMatrix proj fuel looUpdate numberOutputChannels
           chanBuf covBuf channelList classNumber squareOutputMatrixFlag
           outputStatisticsCode kOriginalStats) := by
  refine ⟨?_, ?_, ?_, ?_⟩
  · intro henh hmod hn htf
    simp only [GetClassChannelStatistics]
    rw [if_neg hn, if_neg (not_le.mpr htf), if_pos ⟨henh, hmod⟩]
  · intro hmod
    simp only [GetClassChannelStatistics, CombineFieldChannelStatistics,
      Function.update_same]
    have h1 : ¬((proj.classNames (proj.storageClass classNumber)).covarianceStatsToUse
        = kEnhancedStats ∧
        (proj.classNames (proj.storageClass classNumber)).modifiedStatsFlag = true) := by
      rintro ⟨-, h⟩
      rw [hmod] at h
      exact Bool.false_ne_true h
    have h2 : ¬(kOriginalStats = kEnhancedStats ∧
        (proj.classNames (proj.storageClass classNumber)).modifiedStatsFlag = true) := by
      rintro ⟨h, -⟩
      exact absurd h (by decide)
    rw [if_neg h1, if_neg h2]
  · intro b chan1 cov2 hmod hn hsc hgccs hcov2
    subst hcov2
    simp only [GetClassCovarianceMatrix]
    rw [if_neg hn, if_neg (not_lt.mpr hsc), if_pos ⟨trivial, hmod⟩, hgccs]
  · intro hmod
    simp only [GetClassCovarianceMatrix]
    have h1 : ¬(True ∧
        (proj.classNames (proj.storageClass classNumber)).modifiedStatsFlag = true) := by
      rintro ⟨-, h⟩
      rw [hmod] at h
      exact Bool.false_ne_true h
    have h2 : ¬(kOriginalStats = kEnhancedStats ∧
        (proj.classNames (proj.storageClass classNumber)).modifiedStatsFlag = true) := by
      rintro ⟨h, -⟩
      exact absurd h (by decide)
    rw [if_neg h1, if_neg h2]
    cases hr : GetClassSumsSquares proj fuel numberOutputChannels chanBuf
      covBuf channelList classNumber squareOutputMatrixFlag
      outputStatisticsCode with
    | none => rfl
    | some r =>
      dsimp only
      rw [if_neg (show ¬(kEnhancedStats = kLeaveOneOutStats) from by decide),
        if_neg (show ¬(kOriginalStats = kLeaveOneOutStats) from by decide)]

/-- Witness for `C4_enhanced_fallback` at the concrete projects `c4exProj`
(stored-Enhanced class with modified statistics) and `c1exProj` (no modified
statistics), one channel, null channel list, triangular full-covariance
output. -/
theorem C4_enhanced_fallback_witness :
    (GetClassChannelStatistics c4exProj 2 1 c4chan none 0
      = some (true,
          ReduceChanStatsVector
            (fun ch => c4exProj.modifiedClassChanStats
              (c4exProj.storageClass 0 * c4exProj.numberStatisticsChannels + ch))
            c4chan 1 none)) ∧
    (GetClassChannelStatistics c1exProj 2 1 c4chan none 0
      = GetClassChannelStatistics
          { c1exProj with
              classNames := Function.update c1exProj.classNames
                (c1exProj.storageClass 0)
                { c1exProj.classNames (c1exProj.storageClass 0) with
                    covarianceStatsToUse := kOriginalStats } }
          2 1 c4chan none 0) ∧
    (GetClassCovarianceMatrix c4exProj 2 id 1 c4chan c4cov none 0 false
        kMeanCovariance kEnhancedStats
      = some (ReduceChanStatsVector
            (fun ch => c4exProj.modifiedClassChanStats
              (c4exProj.storageClass 0 * c4exProj.numberStatisticsChannels + ch))
            c4chan 1 none,
          (if true = true ∧ kMeanCovariance = kMeanCovariance ∧
              c4exProj.setZeroVarianceFlag = true then
            (ResetZeroVariances c4exProj.zeroVarianceFactor
              (ReduceInputMatrix 1 c4cov c4exProj.numberStatisticsChannels none
                (fun i => c4exProj.modifiedClassCov
                  (c4exProj.storageClass 0 * c4exProj.numberCovarianceEntries + i))
                false)
              false kMeanCovariance 1).1
           else
            ReduceInputMatrix 1 c4cov c4exProj.numberStatisticsChannels none
              (fun i => c4exProj.modifiedClassCov
                (c4exProj.storageClass 0 * c4exProj.numberCovarianceEntries + i))
              false),
          c4exProj)) ∧
    (GetClassCovarianceMatrix c1exProj 2 id 1 c4chan c4cov none 0 false
        kMeanCovariance kEnhancedStats
      = GetClassCovarianceMatrix c1exProj 2 id 1 c4chan c4cov none 0 false
          kMeanCovariance kOriginalStats) := by
  have ha :=
    (C4_enhanced_fallback c4exProj 2 1 c4chan c4cov none 0 id false
      kMeanCovariance).1 rfl rfl (by decide) (by decide)
  refine ⟨ha, ?_, ?_, ?_⟩
  · exact
      (C4_enhanced_fallback c1exProj 2 1 c4chan c4cov none 0 id false
        kMeanCovariance).2.1 rfl
  · exact
      (C4_enhanced_fallback c4exProj 2 1 c4chan c4cov none 0 id false
        kMeanCovariance).2.2.1 true
        (ReduceChanStatsVector
          (fun ch => c4exProj.modifiedClassChanStats
            (c4exProj.storageClass 0 * c4exProj.numberStatisticsChannels + ch))
          c4chan 1 none)
        (ReduceInputMatrix 1 c4cov c4exProj.numberStatisticsChannels none
          (fun i => c4exProj.modifiedClassCov
            (c4exProj.storageClass 0 * c4exProj.numberCovarianceEntries + i))
          false)
        rfl (by decide) (by decide) ha rfl
  · exact
      (C4_enhanced_fallback c1exProj 2 1 c4chan c4cov none 0 id false
        kMeanCovariance).2.2.2 rfl

/-- **C9**: the consumer-facing accessors cannot signal failure to the
caller.  `GetClassCovarianceMatrix` and `GetClassMeanVector` are `void` in
the source — the embedding's result carries only the buffers (and project
state) with no status component — and on failing inputs they return the
caller's buffers with their garbage content untouched: for the class with no
training fields (`c9Proj`) every internal recombination fails, yet
`GetClassMeanVector` leaves the `99`-filled mean buffer as the "result" and
`GetClassCovarianceMatrix` leaves the `99`-filled covariance buffer as the
"result"; a zero-channel request behaves identically.  A caller therefore
cannot distinguish success from failure, contradicting the claimed
failure-code contract. -/
theorem C9_no_failure_code :
    (GetClassMeanVector c9Proj 1 1 c9chan c9mean none 0
      = some (c9chan, c9mean)) ∧
    (GetClassCovarianceMatrix c9Proj 1 id 1 c9chan c9cov none 0 false
        kMeanCovariance kOriginalStats
      = some (c9chan, c9cov, c9Proj)) ∧
    (GetClassMeanVector c9Proj 1 0 c9chan c9mean none 0
      = some (c9chan, c9mean)) ∧
    (GetClassCovarianceMatrix c9Proj 1 id 0 c9chan c9cov none 0 false
        kMeanCovariance kOriginalStats
      = some (c9chan, c9cov, c9Proj)) := by
  refine ⟨rfl, ?_, rfl, rfl⟩
  rfl

end MSpec
